import Mathlib

/-!
Shallow embedding of the banner layout validation-and-repair engine of
`src/utils/composer_engine.py` (and the asset fan-out of `src/ai_director.py`).

Modelling conventions, used throughout:

* Python numbers (`int`/`float`) are modelled as exact rationals (`Rat`).
  The decimal literals of the source (`1.2`, `0.8`) are the exact rationals
  `6/5` and `4/5`.  Python `int(x)` on a positive number is `Int.floor`.
  Rational division is total in Lean (`q / 0 = 0`); the source would raise
  `ZeroDivisionError` there, and no theorem below depends on that case.
* A fabric JSON object is modelled by the typed tree `Element`: a record of
  the fields the engine reads (`type`, `left`, `top`, `width`, `height`,
  `scaleX`, `scaleY`, `fontSize`, `lineHeight`, `text`, `fill`, `stroke`)
  plus a child list.  Python's `obj.get(key, default)` reads are modelled by
  giving each field the source's default as the structure default; the child
  list is meaningful only for `type = "group"` elements, matching every
  traversal in the source (they all recurse only under `group`).
* A gradient `colorStops` value is either an ordered sequence
  (`Fill.gradientList`) or the legacy keyed mapping (`Fill.gradientMap`);
  a Python `dict` is modelled as its association list in insertion order
  (Python 3.7+ dicts preserve insertion order), with keys already read as
  numbers (the source applies `float(k)` to the string key).
* Violation lists are modelled at the level the repairer consumes them:
  the category of each message (`VCat`), in the order the source appends
  them.  The only inspection the source ever performs on a message string is
  the substring test `"overlap" in error.lower()`; of all message templates
  in `composer_engine.py` exactly the pair-overlap template
  (`"Element overlap detected: ... overlaps with ..."`) contains the word
  `overlap`, so that test is modelled by `VCat.mentionsOverlap`.
* The external JSON parser/serializer (`json.loads` / `json.dumps`) and the
  LLM collaborators are not code of this repository; they are abstracted as
  explicit function parameters (`parse`, `dumps`, oracle responses), exactly
  like the spec's "external collaborators accessed through narrow
  interfaces".
* Python string operations used by the engine (`strip`, `startswith`,
  `endswith`, `split`, `rsplit`, `replace`) are re-implemented over
  `List Char` so that they compute by kernel reduction; `strip` uses the
  ASCII whitespace set of Python's `str.strip`.
-/

namespace Banner

abbrev Num := Rat

/-! ## Python string primitives over character lists -/

/-- The characters Python's `str.strip()` removes. -/
def pyIsSpace (c : Char) : Bool :=
  c == ' ' || c == '\t' || c == '\n' || c == '\r' || c == Char.ofNat 11 || c == Char.ofNat 12

/-- List-level prefix test (Python `startswith` on the character level). -/
def listIsPref : List Char → List Char → Bool
  | [], _ => true
  | _ :: _, [] => false
  | a :: as, b :: bs => a == b && listIsPref as bs

def pyStartsWith (s p : String) : Bool := listIsPref p.data s.data

def pyEndsWith (s p : String) : Bool := listIsPref p.data.reverse s.data.reverse

def lstripL (l : List Char) : List Char := l.dropWhile pyIsSpace

def rstripL (l : List Char) : List Char := (l.reverse.dropWhile pyIsSpace).reverse

/-- Python `str.strip()`. -/
def pyStrip (s : String) : String := ⟨rstripL (lstripL s.data)⟩

/-- Split on the newline character; Python `text.split("\n")`. -/
def splitNL : List Char → List (List Char)
  | [] => [[]]
  | c :: rest =>
    let r := splitNL rest
    if c == '\n' then [] :: r
    else
      match r with
      | h :: t => (c :: h) :: t
      | [] => [[c]]

/-- The part after the first newline, `s.split("\n", 1)[1]`;
`none` models the `IndexError` raised when there is no newline. -/
def splitFirstNL : List Char → Option (List Char)
  | [] => Option.none
  | c :: rest => if c == '\n' then some rest else splitFirstNL rest

/-- The part before the last newline, `s.rsplit("\n", 1)[0]`;
`none` models the `IndexError` raised when there is no newline. -/
def dropAfterLastNL (l : List Char) : Option (List Char) :=
  match splitFirstNL l.reverse with
  | Option.none => Option.none
  | some r => some r.reverse

/-- Left-to-right non-overlapping replacement, Python `s.replace(pat, repl)`.
The fuel argument (instantiated with the string length) only serves
structural termination; one unit is spent per consumed character, so
`s.data.length` units always suffice for a non-empty pattern. -/
def replaceFuel (pat repl : List Char) : Nat → List Char → List Char
  | 0, l => l
  | _ + 1, [] => []
  | fuel + 1, c :: rest =>
    if listIsPref pat (c :: rest) then repl ++ replaceFuel pat repl fuel ((c :: rest).drop pat.length)
    else c :: replaceFuel pat repl fuel rest

def pyReplace (pat repl s : String) : String :=
  ⟨replaceFuel pat.data repl.data s.data.length s.data⟩

/-- `sep.join(parts)`, used only to build opaque error summaries. -/
def joinWith (sep : List Char) : List (List Char) → List Char
  | [] => []
  | [p] => p
  | p :: ps => p ++ sep ++ joinWith sep ps

/-- First element satisfying a predicate (the semantics of Python's
first-match inner loops and of `List.find?`). -/
def findFirst {α : Type} (p : α → Prop) [DecidablePred p] : List α → Option α
  | [] => Option.none
  | x :: xs => if p x then some x else findFirst p xs

/-! ## String constants of the engine -/

abbrev sTextbox : String := "textbox"
abbrev sGroup : String := "group"
abbrev sText : String := "text"
abbrev sImage : String := "image"
abbrev sRect : String := "rect"
abbrev sLinear : String := "linear"
abbrev sRadial : String := "radial"
abbrev sV530 : String := "5.3.0"
abbrev sPASS : String := "PASS"
abbrev sContinueColon : String := "CONTINUE:"
abbrev sProgErrors : String := "PROGRAMMATIC_ERRORS:"
abbrev sContProg : String := "CONTINUE: PROGRAMMATIC_ERRORS: "
abbrev sValidationFailed : String := "CONTINUE: Validation failed, please review banner composition"
abbrev sFence : String := "```"
abbrev sSemi : String := "; "
abbrev sEmpty : String := ""

/-! ## Data model -/

/-- Absolute bounding box as computed by `get_element_bounds` in the source
(`left`, `top`, `right`, `bottom`, effective `width`/`height`). -/
structure Box where
  left : Num
  top : Num
  right : Num
  bottom : Num
  width : Num
  height : Num
deriving Repr, DecidableEq, Inhabited

/-- The `fill`/`stroke`-relevant part of an element: absent, a flat color
string, or a gradient whose `colorStops` is either the required ordered
sequence or the legacy keyed mapping (association list in insertion order). -/
inductive Fill where
  | noFill
  | color (c : String)
  | gradientList (gtype : String) (stops : List (Num × String))
  | gradientMap (gtype : String) (stops : List (Num × String))
deriving Repr, DecidableEq, Inhabited

/-- The scalar fields of a fabric object, with the defaults the source
supplies on `obj.get(...)`. -/
structure ElementCore where
  etype : String
  left : Num := 0
  top : Num := 0
  width : Num := 0
  height : Num := 0
  scaleX : Num := 1
  scaleY : Num := 1
  fontSize : Num := 16
  lineHeight : Num := 6/5
  text : String := ""
  fill : Fill := Fill.noFill
  stroke : Option String := Option.none
deriving Repr, DecidableEq, Inhabited

mutual
inductive Element where
  | mk (core : ElementCore) (children : ElementList)
inductive ElementList where
  | nil
  | cons (head : Element) (tail : ElementList)
end

def Element.core : Element → ElementCore
  | .mk c _ => c

def Element.children : Element → ElementList
  | .mk _ cs => cs

/-- A parsed fabric document: the fields of the JSON root the engine reads. -/
structure Doc where
  version : Option String := some sV530
  width : Option Num := Option.none
  height : Option Num := Option.none
  objects : ElementList := ElementList.nil

/-! ## Geometry -/

def effW (c : ElementCore) : Num := c.width * c.scaleX

def effH (c : ElementCore) : Num := c.height * c.scaleY

/-- `len(text.split('\n'))`: the number of lines of a text. -/
def lineCount (s : String) : Num := ((splitNL s.data).length : Nat)

/-- The textbox height estimate `fontSize * lineHeight * lineCount`. -/
def estH (c : ElementCore) : Num := c.fontSize * c.lineHeight * lineCount c.text

/-- `get_element_bounds` of the source: absolute box of an element given the
accumulated parent offset, with the textbox height estimate applied. -/
def get_element_bounds (c : ElementCore) (parentLeft parentTop : Num) : Box :=
  let left := c.left + parentLeft
  let top := c.top + parentTop
  let ew := effW c
  let eh0 := effH c
  let eh := if c.etype = sTextbox then max eh0 (estH c) else eh0
  ⟨left, top, left + ew, top + eh, ew, eh⟩

/-- The box `check_object_bounds` (boundary validator) effectively checks:
raw `left`/`top` (no parent offset accumulated) and plain effective size
(no textbox estimate). -/
def boundaryBoxOf (c : ElementCore) : Box :=
  ⟨c.left, c.top, c.left + effW c, c.top + effH c, effW c, effH c⟩

/-- Shift a box by a parent offset. -/
def offsetBox (pl pt : Num) (b : Box) : Box :=
  ⟨b.left + pl, b.top + pt, b.right + pl, b.bottom + pt, b.width, b.height⟩

/-! ## Violations

Violation messages are modelled by their category, in the order the source
appends them (see the module docstring). -/

inductive VCat where
  | structV
  | canvas
  | boundary
  | gradient
  | textType
  | color
  | overlapPair
  | textGap
deriving Repr, DecidableEq, Inhabited

/-- Whether the message template for this category contains the substring
`"overlap"` (after `.lower()`): only the pair-overlap template
`"Element overlap detected: ... overlaps with ..."` does. -/
def VCat.mentionsOverlap : VCat → Bool
  | .overlapPair => true
  | _ => false

/-! ## Structural and canvas validators -/

/-- `validate_json_structure`, on a successfully parsed document: the
version tag must be present and equal `"5.3.0"` (`objects` is a list by
construction in the typed model). -/
def validate_json_structure (d : Doc) : List VCat :=
  match d.version with
  | Option.none => [VCat.structV]
  | some v => if v = sV530 then [] else [VCat.structV]

/-- `validate_canvas_dimensions`. -/
def validate_canvas_dimensions (d : Doc) (res : Num × Num) : List VCat :=
  (match d.width with
   | Option.none => [VCat.canvas]
   | some w => if w = res.1 then [] else [VCat.canvas]) ++
  (match d.height with
   | Option.none => [VCat.canvas]
   | some h => if h = res.2 then [] else [VCat.canvas])

/-! ## Boundary validator -/

/-- The four per-element checks of `check_object_bounds`, in source order:
right overflow, bottom overflow, negative left, negative top.  The element's
raw `left`/`top` are used (`check_object_bounds` does not accumulate parent
offsets when recursing into groups) and no textbox estimate is applied. -/
def coreBViols (cw ch : Num) (c : ElementCore) : List VCat :=
  (if c.left + effW c > cw then [VCat.boundary] else []) ++
  (if c.top + effH c > ch then [VCat.boundary] else []) ++
  (if c.left < 0 then [VCat.boundary] else []) ++
  (if c.top < 0 then [VCat.boundary] else [])

mutual
def elemBViols (cw ch : Num) : Element → List VCat
  | .mk c cs =>
    coreBViols cw ch c ++ (if c.etype = sGroup then listBViols cw ch cs else [])
def listBViols (cw ch : Num) : ElementList → List VCat
  | .nil => []
  | .cons e es => elemBViols cw ch e ++ listBViols cw ch es
end

/-- `validate_element_boundaries`. -/
def validate_element_boundaries (d : Doc) (res : Num × Num) : List VCat :=
  listBViols res.1 res.2 d.objects

/-! ## Gradient validator -/

/-- `check_gradient` on one fill: a keyed-mapping `colorStops` on a
linear/radial gradient is a violation; list entries always carry both
`offset` and `color` in the typed model. -/
def fillGViols : Fill → List VCat
  | .gradientMap t _ => if t = sLinear ∨ t = sRadial then [VCat.gradient] else []
  | _ => []

mutual
def elemGViols : Element → List VCat
  | .mk c cs => fillGViols c.fill ++ listGViols cs
def listGViols : ElementList → List VCat
  | .nil => []
  | .cons e es => elemGViols e ++ listGViols es
end

/-- `validate_gradient_syntax` (the recursive walk visits every nested
object; gradients live only in `fill` in the typed model). -/
def validate_gradient_syntax (d : Doc) : List VCat :=
  listGViols d.objects

/-! ## Text-type validator -/

mutual
def elemTViols : Element → List VCat
  | .mk c cs =>
    (if c.etype = sText then [VCat.textType] else []) ++
    (if c.etype = sGroup then listTViols cs else [])
def listTViols : ElementList → List VCat
  | .nil => []
  | .cons e es => elemTViols e ++ listTViols es
end

/-- `validate_text_objects`. -/
def validate_text_objects (d : Doc) : List VCat :=
  listTViols d.objects

/-! ## Color validator -/

def isHexDigit (c : Char) : Bool :=
  c.isDigit || ('A' ≤ c && c ≤ 'F') || ('a' ≤ c && c ≤ 'f')

/-- The regex `^#[0-9A-Fa-f]{6}$`. -/
def isHexColor (s : String) : Bool :=
  match s.data with
  | h :: rest => h == '#' && rest.length == 6 && rest.all isHexDigit
  | [] => false

def skipWs (l : List Char) : List Char := l.dropWhile pyIsSpace

/-- `\d+`: consume at least one digit, return the remainder. -/
def parseDigits1 (l : List Char) : Option (List Char) :=
  if (l.takeWhile Char.isDigit).isEmpty then Option.none
  else some (l.dropWhile Char.isDigit)

def expectChar (c : Char) : List Char → Option (List Char)
  | x :: rest => if x == c then some rest else Option.none
  | [] => Option.none

/-- `rgba?\(`. -/
def afterRgbHead : List Char → Option (List Char)
  | 'r' :: 'g' :: 'b' :: 'a' :: '(' :: rest => some rest
  | 'r' :: 'g' :: 'b' :: '(' :: rest => some rest
  | _ => Option.none

/-- The optional alpha group `(,\s*[01]?\.?\d*)?` (greedy, every piece
optional, so after a comma it always succeeds). -/
def parseAlphaOpt (l : List Char) : List Char :=
  match l with
  | c :: rest =>
    if c == ',' then
      let r1 := skipWs rest
      let r2 := match r1 with
                | c2 :: r => if c2 == '0' || c2 == '1' then r else r1
                | [] => r1
      let r3 := match r2 with
                | c3 :: r => if c3 == '.' then r else r2
                | [] => r2
      r3.dropWhile Char.isDigit
    else l
  | [] => l

/-- The regex `^rgba?\(\s*\d+\s*,\s*\d+\s*,\s*\d+\s*(,\s*[01]?\.?\d*)?\s*\)$`
(ASCII reading of `\d`/`\s`). -/
def isRgbaColor (s : String) : Bool :=
  (do
    let l ← afterRgbHead s.data
    let l ← parseDigits1 (skipWs l)
    let l ← expectChar ',' (skipWs l)
    let l ← parseDigits1 (skipWs l)
    let l ← expectChar ',' (skipWs l)
    let l ← parseDigits1 (skipWs l)
    let l := parseAlphaOpt (skipWs l)
    let l ← expectChar ')' (skipWs l)
    if l.isEmpty then some () else Option.none).isSome

/-- `is_valid_color`. -/
def is_valid_color (s : String) : Bool := isHexColor s || isRgbaColor s

/-- `check_colors` on one element: string `fill` and `stroke` values must be
valid colors (non-string fills are skipped there). -/
def coreCViols (c : ElementCore) : List VCat :=
  (match c.fill with
   | .color s => if is_valid_color s then [] else [VCat.color]
   | _ => []) ++
  (match c.stroke with
   | some s => if is_valid_color s then [] else [VCat.color]
   | Option.none => [])

mutual
def elemCViols : Element → List VCat
  | .mk c cs => coreCViols c ++ listCViols cs
def listCViols : ElementList → List VCat
  | .nil => []
  | .cons e es => elemCViols e ++ listCViols es
end

/-- `validate_color_format`. -/
def validate_color_format (d : Doc) : List VCat :=
  listCViols d.objects

/-! ## Overlap validator (`validate_text_overlaps`) -/

/-- One entry of the `all_elements` list built by `collect_elements`:
the element's type and its absolute bounds. -/
structure CElem where
  etype : String
  bounds : Box
deriving Repr, DecidableEq, Inhabited

mutual
def collectElem (pl pt : Num) : Element → List CElem
  | .mk c cs =>
    ⟨c.etype, get_element_bounds c pl pt⟩ ::
      (if c.etype = sGroup then collectList (c.left + pl) (c.top + pt) cs else [])
def collectList (pl pt : Num) : ElementList → List CElem
  | .nil => []
  | .cons e es => collectElem pl pt e ++ collectList pl pt es
end

/-- `boxes_overlap` with its 20px minimum-spacing buffer: the negation of
the four separating conditions, rendered as a cascade. -/
def boxes_overlap (b1 b2 : Box) (minSpacing : Num) : Bool :=
  if b1.right + minSpacing ≤ b2.left then false
  else if b1.left ≥ b2.right + minSpacing then false
  else if b1.bottom + minSpacing ≤ b2.top then false
  else if b1.top ≥ b2.bottom + minSpacing then false
  else true

/-- The source's allow-list of acceptable overlaps, for a pair in document
order (`t1` appears before `t2`): the five `continue` cases of
`validate_text_overlaps`. -/
def allowedOverlap (t1 t2 : String) : Bool :=
  decide ((t1 = sImage ∧ t2 = sImage) ∨
          (t1 = sRect ∧ (t2 = sImage ∨ t2 = sTextbox)) ∨
          (t1 = sImage ∧ t2 = sRect) ∨
          (t1 = sImage ∧ t2 = sTextbox) ∨
          (t1 = sTextbox ∧ t2 = sImage))

/-- Whether the pair `(e1, e2)` (in that list order) is reported: padded
boxes intersect and the pair is not on the allow-list. -/
def flaggedPair (e1 e2 : CElem) : Bool :=
  boxes_overlap e1.bounds e2.bounds 20 && !allowedOverlap e1.etype e2.etype

/-- The index pairs reported by the double loop of `validate_text_overlaps`
(`i >= j` skipped, so `i < j` in list order). -/
def overlapViolationPairs (l : List CElem) : List (Nat × Nat) :=
  (List.range l.length).flatMap fun i =>
    (List.range l.length).filterMap fun j =>
      if i < j ∧ flaggedPair (l.getD i default) (l.getD j default) then some (i, j)
      else Option.none

/-- Stable insertion: place `x` after every element whose key is `≤` its
key.  `sortByTop` below is then a stable ascending sort by `bounds.top`,
matching Python's stable `list.sort(key=...)`. -/
def insByTop (x : CElem) : List CElem → List CElem
  | [] => [x]
  | y :: ys => if y.bounds.top ≤ x.bounds.top then y :: insByTop x ys else x :: y :: ys

def sortCByTop (l : List CElem) : List CElem :=
  l.foldl (fun acc x => insByTop x acc) []

/-- The adjacent-gap rule on textboxes sorted by top: a gap under 30px is a
violation (`VCat.textGap`; its message does not contain `"overlap"`). -/
def textGapViols (l : List CElem) : List VCat :=
  let texts := sortCByTop (l.filter (fun e => decide (e.etype = sTextbox)))
  (List.range (texts.length - 1)).filterMap fun i =>
    let cur := texts.getD i default
    let nxt := texts.getD (i + 1) default
    if nxt.bounds.top - cur.bounds.bottom < 30 then some VCat.textGap else Option.none

/-- `validate_text_overlaps`: pair overlaps then adjacent text gaps. -/
def validate_text_overlaps (d : Doc) : List VCat :=
  let l := collectList 0 0 d.objects
  (overlapViolationPairs l).map (fun _ => VCat.overlapPair) ++ textGapViols l

/-! ## `programmatic_validation` -/

/-- `programmatic_validation` on a parsed document: structure errors are
returned alone (early return), otherwise the categories of all checks are
concatenated in source order. -/
def programmaticViolations (d : Doc) (res : Num × Num) : List VCat :=
  let s := validate_json_structure d
  if s ≠ [] then s
  else
    validate_canvas_dimensions d res ++
    validate_element_boundaries d res ++
    validate_gradient_syntax d ++
    validate_text_objects d ++
    validate_color_format d ++
    validate_text_overlaps d

/-! ## Repairer (`fix_programmatic_errors`) -/

/-- The canvas/version fixes at the top of `fix_programmatic_errors`:
width/height are overwritten whenever missing or different from the expected
resolution, the version tag is inserted only when missing. -/
def fixCanvasVersion (d : Doc) (res : Num × Num) : Doc :=
  { d with
    width := some res.1
    height := some res.2
    version := match d.version with
               | Option.none => some sV530
               | some v => some v }

/-- `fix_gradients` on one fill: convert a keyed mapping on a linear/radial
gradient to the sequence of `{offset, color}` records in mapping insertion
order (no sorting is performed by the source). -/
def fixFillGradient : Fill → Fill
  | .gradientMap t stops =>
    if t = sLinear ∨ t = sRadial then .gradientList t stops else .gradientMap t stops
  | f => f

mutual
def fixGradElem : Element → Element
  | .mk c cs => .mk { c with fill := fixFillGradient c.fill } (fixGradList cs)
def fixGradList : ElementList → ElementList
  | .nil => .nil
  | .cons e es => .cons (fixGradElem e) (fixGradList es)
end

mutual
def fixTextTypeElem : Element → Element
  | .mk c cs =>
    let c2 := if c.etype = sText then { c with etype := sTextbox } else c
    .mk c2 (if c2.etype = sGroup then fixTextTypeList cs else cs)
def fixTextTypeList : ElementList → ElementList
  | .nil => .nil
  | .cons e es => .cons (fixTextTypeElem e) (fixTextTypeList es)
end

/-- The per-element body of `fix_element_bounds`.  All conditions read the
variables captured at entry (`left`, `top`, ...), matching the source; in
particular the two final negative-position clamps test the *original*
`left`/`top` even if an earlier branch already rewrote them, and the
`obj['width'] < new_width` repositioning test can never succeed because
`obj['width']` was just set to `max(new_width, 50)`. -/
def fixRight (cw : Num) (c0 c : ElementCore) : ElementCore :=
  if c0.left + c0.width * c0.scaleX > cw then
    if c0.width * c0.scaleX ≤ cw then { c with left := max 0 (cw - c0.width * c0.scaleX) }
    else if c0.scaleX > 1 then { c with scaleX := min (cw / c0.width) 1 }
    else if max (cw - c0.left) 50 < cw - c0.left then
      { c with width := max (cw - c0.left) 50, left := cw - max (cw - c0.left) 50 }
    else { c with width := max (cw - c0.left) 50 }
  else c

def fixBottom (ch : Num) (c0 c : ElementCore) : ElementCore :=
  if c0.top + c0.height * c0.scaleY > ch then
    if c0.height * c0.scaleY ≤ ch then { c with top := max 0 (ch - c0.height * c0.scaleY) }
    else if c0.scaleY > 1 then { c with scaleY := min (ch / c0.height) 1 }
    else if max (ch - c0.top) 20 < ch - c0.top then
      { c with height := max (ch - c0.top) 20, top := ch - max (ch - c0.top) 20 }
    else { c with height := max (ch - c0.top) 20 }
  else c

def fixCoreBounds (cw ch : Num) (c0 : ElementCore) : ElementCore :=
  let c1 := fixRight cw c0 c0
  let c2 := fixBottom ch c0 c1
  let c3 := if c0.left < 0 then { c2 with left := 0 } else c2
  if c0.top < 0 then { c3 with top := 0 } else c3

mutual
def fixElemBounds (cw ch : Num) : Element → Element
  | .mk c cs =>
    .mk (fixCoreBounds cw ch c) (if c.etype = sGroup then fixListBounds cw ch cs else cs)
def fixListBounds (cw ch : Num) : ElementList → ElementList
  | .nil => .nil
  | .cons e es => .cons (fixElemBounds cw ch e) (fixListBounds cw ch es)
end

/-! ## Overlap resolver (`fix_text_overlaps`) -/

/-- One entry of the `text_elements` list: the textbox's traversal index
(standing in for the Python object reference), the object fields the
resolver reads/writes, the accumulated parent offset, and the bounds fields
it uses. -/
structure TRec where
  idx : Nat
  objTop : Num
  fontSize : Num
  lineHeight : Num
  text : String
  parentTop : Num
  bTop : Num
  bBottom : Num
  bHeight : Num
deriving Repr, DecidableEq, Inhabited

/- `collect_text_elements`: textboxes in pre-order (groups recursed with
accumulated offsets), numbered by a running counter. -/
mutual
def collectTextElem (pl pt : Num) (k : Nat) : Element → List TRec × Nat
  | .mk c cs =>
    if c.etype = sTextbox then
      let b := get_element_bounds c pl pt
      ([⟨k, c.top, c.fontSize, c.lineHeight, c.text, pt, b.top, b.bottom, b.height⟩], k + 1)
    else if c.etype = sGroup then collectTextList (c.left + pl) (c.top + pt) k cs
    else ([], k)
def collectTextList (pl pt : Num) (k : Nat) : ElementList → List TRec × Nat
  | .nil => ([], k)
  | .cons e es =>
    let (r1, k1) := collectTextElem pl pt k e
    let (r2, k2) := collectTextList pl pt k1 es
    (r1 ++ r2, k2)
end

/-- Stable insertion by `bounds['top']` (same scheme as `insByTop`). -/
def insTRec (x : TRec) : List TRec → List TRec
  | [] => [x]
  | y :: ys => if y.bTop ≤ x.bTop then y :: insTRec x ys else x :: y :: ys

def sortTByTop (l : List TRec) : List TRec :=
  l.foldl (fun acc x => insTRec x acc) []

/-- The off-canvas fallback: if the repositioned bottom exceeds
`canvas_height - margin`, shrink the font once (`int(fontSize * 0.8)`,
only when `fontSize > 24`) and recompute height/bottom from the new font. -/
def shrinkIfOffCanvas (ch : Num) (cur : TRec) : TRec :=
  if cur.bBottom > ch - 40 then
    if cur.fontSize > 24 then
      let fs : Num := (Int.floor (cur.fontSize * (4/5)) : Int)
      let nh := fs * cur.lineHeight * lineCount cur.text
      { cur with fontSize := fs, bHeight := nh, bBottom := cur.bTop + nh }
    else cur
  else cur

/-- Processing of one element of the sorted list: scan the *earlier*
elements in order and stop at the first one whose bottom + 40 exceeds the
current top (the source `break`s there); push the current element below it
(clamped to the 40px margin), then apply the off-canvas fallback. -/
def pushOne (ch : Num) (done : List TRec) (cur : TRec) : TRec :=
  match findFirst (fun p => cur.bTop < p.bBottom + 40) done with
  | Option.none => cur
  | some p =>
    let newTop := p.bBottom + 40 - cur.parentTop
    let t := max 40 newTop
    let cur1 := { cur with objTop := t, bTop := t + cur.parentTop }
    let cur2 := { cur1 with bBottom := cur1.bTop + cur1.bHeight }
    shrinkIfOffCanvas ch cur2

/-- The main resolver walk: each element is processed against the list of
already-processed (hence final) elements. -/
def resolveList (ch : Num) (done : List TRec) : List TRec → List TRec
  | [] => []
  | cur :: rest =>
    let c2 := pushOne ch done cur
    c2 :: resolveList ch (done ++ [c2]) rest

/- Write the mutated `top`/`fontSize` back into the tree (in Python the
list entries alias the tree nodes; here textboxes are matched back by their
traversal index). -/
mutual
def writeBackElem (resolved : List TRec) (k : Nat) : Element → Element × Nat
  | .mk c cs =>
    if c.etype = sTextbox then
      match findFirst (fun r => r.idx = k) resolved with
      | some r => (.mk { c with top := r.objTop, fontSize := r.fontSize } cs, k + 1)
      | Option.none => (.mk c cs, k + 1)
    else if c.etype = sGroup then
      let (cs2, k2) := writeBackList resolved k cs
      (.mk c cs2, k2)
    else (.mk c cs, k)
def writeBackList (resolved : List TRec) (k : Nat) : ElementList → ElementList × Nat
  | .nil => (.nil, k)
  | .cons e es =>
    let (e2, k1) := writeBackElem resolved k e
    let (es2, k2) := writeBackList resolved k1 es
    (.cons e2 es2, k2)
end

/-- The sorted `text_elements` list the resolver starts from. -/
def sortedTextRecs (d : Doc) : List TRec :=
  sortTByTop (collectTextList 0 0 0 d.objects).1

/-- The final state of the `text_elements` list after the resolver loop. -/
def resolvedTextRecs (d : Doc) (res : Num × Num) : List TRec :=
  resolveList res.2 [] (sortedTextRecs d)

/-- `fix_text_overlaps`. -/
def fix_text_overlaps (d : Doc) (res : Num × Num) : Doc :=
  { d with objects := (writeBackList (resolvedTextRecs d res) 0 d.objects).1 }

/-- `fix_programmatic_errors` on a parsed document, given the error list
passed by the caller: canvas/version fixes, gradient normalization,
text retyping, boundary fixes, then the overlap pass only when some error
message mentions overlaps. -/
def fix_programmatic_errors (d : Doc) (errors : List VCat) (res : Num × Num) : Doc :=
  let d1 := fixCanvasVersion d res
  let d2 := { d1 with objects := fixGradList d1.objects }
  let d3 := { d2 with objects := fixTextTypeList d2.objects }
  let d4 := { d3 with objects := fixListBounds res.1 res.2 d3.objects }
  if errors.any VCat.mentionsOverlap then fix_text_overlaps d4 res else d4

/-! ## String-level pipeline

`json.loads` / `json.dumps` are external library code; they appear as the
abstract parameters `parse` / `dumps` below. -/

/-- `programmatic_validation` on a raw string: a parse failure yields the
single "Invalid JSON" (structure-category) error with an early return. -/
def progValidationCats (parse : String → Option Doc) (s : String) (res : Num × Num) : List VCat :=
  match parse s with
  | Option.none => [VCat.structV]
  | some d => programmaticViolations d res

/-- `is_valid` of `programmatic_validation`. -/
def progValid (parse : String → Option Doc) (s : String) (res : Num × Num) : Bool :=
  (progValidationCats parse s res).isEmpty

/-- `fix_programmatic_errors` on a raw string (unparseable input is
returned unchanged, per the source's bare `except`). -/
def fixProgrammaticStr (parse : String → Option Doc) (dumps : Doc → String)
    (s : String) (errors : List VCat) (res : Num × Num) : String :=
  match parse s with
  | Option.none => s
  | some d => dumps (fix_programmatic_errors d errors res)

/-- The response-cleaning block of `apply_feedback` / `compose_fabric_banner`:
strip, drop a leading and a trailing markdown fence line, strip again.
`none` models the `IndexError` raised by `split("\n", 1)[1]` /
`rsplit("\n", 1)[0]` on a fence line without a newline. -/
def cleanLLM (t : String) : Option String :=
  let s0 := pyStrip t
  match (if pyStartsWith s0 sFence then (splitFirstNL s0.data).map (⟨·⟩) else some s0 :
         Option String) with
  | Option.none => Option.none
  | some s1 =>
    match (if pyEndsWith s1 sFence then (dropAfterLastNL s1.data).map (⟨·⟩) else some s1 :
           Option String) with
    | Option.none => Option.none
    | some s2 => some (pyStrip s2)

/-- `apply_feedback`.  `llmResp` is the outcome of the feedback LLM call
(`none` = the call raised); any raised exception returns the original
`fabric_json` via the source's catch-all handler. -/
def apply_feedback (parse : String → Option Doc) (dumps : Doc → String)
    (llmResp : Option String) (fabricJson feedback : String) (res : Num × Num) : String :=
  let fixBranch : Option String :=
    if pyStartsWith feedback sProgErrors then
      let detailed := progValidationCats parse fabricJson res
      let fixed := fixProgrammaticStr parse dumps fabricJson detailed res
      if progValid parse fixed res then some fixed else Option.none
    else Option.none
  match fixBranch with
  | some fixed => fixed
  | Option.none =>
    match llmResp with
    | Option.none => fabricJson
    | some t =>
      match cleanLLM t with
      | Option.none => fabricJson
      | some cleaned => if progValid parse cleaned res then cleaned else fabricJson

/-! ## Refinement loop (`validate_banner`, `compose_fabric_banner`) -/

/-- A short tag per category, standing in for the message text; the summary
built from these is only ever prefix-tested downstream. -/
def vcatMsg : VCat → String
  | .structV => "structure error"
  | .canvas => "canvas mismatch"
  | .boundary => "boundary error"
  | .gradient => "gradient format error"
  | .textType => "text type error"
  | .color => "color format error"
  | .overlapPair => "element overlap"
  | .textGap => "text gap"

/-- `"; ".join(prog_errors[:3])`. -/
def errSummary (errors : List VCat) : String :=
  ⟨joinWith sSemi.data ((errors.take 3).map (fun v => (vcatMsg v).data))⟩

/-- The external collaborators of one `compose_fabric_banner` run, indexed
by loop iteration: the validator LLM response and the feedback LLM
response (`none` = the call raised). -/
structure LoopEnv where
  parse : String → Option Doc
  dumps : Doc → String
  critique : Nat → Option String
  applyLLM : Nat → Option String

/-- `validate_banner` at iteration `i`: programmatic failure short-circuits
with `"CONTINUE: PROGRAMMATIC_ERRORS: <summary>"`; otherwise the validator
LLM's stripped response is returned, and any exception is caught and turned
into the fixed `"CONTINUE: Validation failed, ..."` text. -/
def validate_banner (env : LoopEnv) (i : Nat) (json : String) (res : Num × Num) : String :=
  let cats := progValidationCats env.parse json res
  if cats.isEmpty then
    match env.critique i with
    | some s => pyStrip s
    | Option.none => sValidationFailed
  else sContProg ++ errSummary cats

/-- The feedback text extracted in the loop body:
`validation_result.replace("CONTINUE:", "").strip()`. -/
def feedbackOf (v : String) : String := pyStrip (pyReplace sContinueColon sEmpty v)

/-- The `for iteration in range(5)` loop of `compose_fabric_banner`.
Returns `(document, validations run, feedback applications)`.  `fuel`
counts the remaining iterations (started at 5), `iter` the current index. -/
def composeLoop (env : LoopEnv) (res : Num × Num) : Nat → Nat → String → String × Nat × Nat
  | 0, _, cur => (cur, 0, 0)
  | fuel + 1, iter, cur =>
    let v := validate_banner env iter cur res
    if pyStartsWith v sPASS then (cur, 1, 0)
    else if pyStartsWith v sContinueColon then
      if iter < 4 then
        let cur2 := apply_feedback env.parse env.dumps (env.applyLLM iter) cur (feedbackOf v) res
        let r2 := composeLoop env res fuel (iter + 1) cur2
        (r2.1, r2.2.1 + 1, r2.2.2 + 1)
      else (cur, 1, 0)
    else (cur, 1, 0)

/-- `compose_fabric_banner` from the point where the initial composition
text has been produced and cleaned. -/
def compose_fabric_banner (env : LoopEnv) (res : Num × Num) (initial : String) :
    String × Nat × Nat :=
  composeLoop env res 5 0 initial

/-- The candidate document after `k` feedback applications, starting from
`initial` (iteration `j` consumes the iteration-`j` oracle responses). -/
def feedbackChain (env : LoopEnv) (res : Num × Num) (initial : String) : Nat → String
  | 0 => initial
  | k + 1 =>
    let cur := feedbackChain env res initial k
    apply_feedback env.parse env.dumps (env.applyLLM k) cur
      (feedbackOf (validate_banner env k cur res)) res

/-! ## Asset fan-out (`generation_phase` of `src/ai_director.py`)

The thread pool itself is outside a shallow embedding; what is modelled is
its observable aggregation discipline: each task produces one outcome
(a truthy asset dict, a falsy/`None` result, or a raised exception), the
results are appended in completion order — an arbitrary permutation of
submission order — and failures are caught per-future and skipped. -/

inductive TaskOutcome where
  | ok (asset : String)
  | failed
  | exn (msg : String)
deriving Repr, DecidableEq

/-- `min(len(assets_to_generate), 4)`: the `max_workers` of the pool. -/
def fanoutWorkers (assetCount : Nat) : Nat := min assetCount 4

/-- The `generated_assets` aggregation of `generation_phase`: successful
results are appended, `None`/falsy results are skipped by `if result:`, and
a raised exception is caught for that future alone. -/
def aggregateResults (outcomes : List TaskOutcome) : List String :=
  outcomes.filterMap fun o =>
    match o with
    | .ok a => some a
    | _ => Option.none

/-! ## Observers and concrete instances used by the theorems -/

/-- The `top` fields of a document's textboxes, in traversal order. -/
def textTops (d : Doc) : List Num :=
  (collectTextList 0 0 0 d.objects).1.map (fun r => r.objTop)

/-- The `fontSize` fields of a document's textboxes, in traversal order. -/
def textFontSizes (d : Doc) : List Num :=
  (collectTextList 0 0 0 d.objects).1.map (fun r => r.fontSize)

/-- A top-level textbox with no children. -/
def tbox (c : ElementCore) : Element := .mk c ElementList.nil

/-- The concrete scenario of the spec (§8): a 1080x1080 canvas, a two-line
headline of effective height 96 at top 100, and a second textbox at 150. -/
def docScenario : Doc :=
  { version := some sV530, width := some 1080, height := some 1080,
    objects := .cons
      (tbox { etype := sTextbox, left := 100, top := 100, width := 400, height := 50,
              fontSize := 40, text := "A\nB" })
      (.cons (tbox { etype := sTextbox, left := 100, top := 150, width := 300, height := 40,
                     fontSize := 30, text := "CTA" })
        ElementList.nil) }

/- Whether every element of a document tree (recursively through group
children, the only children the engine's traversals visit) has non-negative
`left` and `top`. -/
mutual
def elemPosOK : Element → Prop
  | .mk c cs => (0 ≤ c.left ∧ 0 ≤ c.top) ∧ (if c.etype = sGroup then listPosOK cs else True)
def listPosOK : ElementList → Prop
  | .nil => True
  | .cons e es => elemPosOK e ∧ listPosOK es
end

/- Whether every element of a document tree (recursively through group
children) has effective width/height at most the canvas size. -/
mutual
def elemSizesOK (cw ch : Num) : Element → Prop
  | .mk c cs =>
    (effW c ≤ cw ∧ effH c ≤ ch) ∧ (if c.etype = sGroup then listSizesOK cw ch cs else True)
def listSizesOK (cw ch : Num) : ElementList → Prop
  | .nil => True
  | .cons e es => elemSizesOK cw ch e ∧ listSizesOK cw ch es
end

/- All fills of a tree, in traversal order (every child list visited, as
the source's untyped gradient walk does). -/
mutual
def elemFills : Element → List Fill
  | .mk c cs => c.fill :: listFills cs
def listFills : ElementList → List Fill
  | .nil => []
  | .cons e es => elemFills e ++ listFills es
end

/- The boxes the boundary validator checks, in its traversal order
(pre-order, recursing under groups, in the child's own coordinates). -/
mutual
def boundaryBoxesElem : Element → List Box
  | .mk c cs => boundaryBoxOf c :: (if c.etype = sGroup then boundaryBoxesList cs else [])
def boundaryBoxesList : ElementList → List Box
  | .nil => []
  | .cons e es => boundaryBoxesElem e ++ boundaryBoxesList es
end

/-- The boxes the boundary validator checks for a document. -/
def boundaryBoxes (d : Doc) : List Box := boundaryBoxesList d.objects

/-- The boxes the overlap detector uses for a document (same traversal
order as `boundaryBoxes`). -/
def overlapBoxes (d : Doc) : List Box := (collectList 0 0 d.objects).map (fun e => e.bounds)

/-- Whether a fan-out task outcome is a success (a truthy result dict). -/
def isSuccess : TaskOutcome → Bool
  | .ok _ => true
  | _ => false

/-- Three stacked textboxes: a short first line, a tall second element, and
a third element that the resolver pushes below the *first* element only
(the inner loop `break`s at the first conflict), leaving it overlapping the
second. -/
def docThree : Doc :=
  { version := some sV530, width := some 1080, height := some 1080,
    objects := .cons
      (tbox { etype := sTextbox, left := 0, top := 0, width := 50, height := 10,
              fontSize := 30, text := "A" })
      (.cons (tbox { etype := sTextbox, left := 200, top := 1, width := 50, height := 300,
                     fontSize := 100, text := "X" })
        (.cons (tbox { etype := sTextbox, left := 400, top := 2, width := 50, height := 10,
                       fontSize := 30, text := "C" })
          ElementList.nil)) }

/-- The first record of `sortedTextRecs docScenario`. -/
def recScenario0 : TRec := ⟨0, 100, 40, 6/5, "A\nB", 0, 100, 196, 96⟩

/-- The second record of `sortedTextRecs docScenario`. -/
def recScenario1 : TRec := ⟨1, 150, 30, 6/5, "CTA", 0, 150, 190, 40⟩

/-- A textbox listed *before* an overlapping image: exempted by the source's
allow-list. -/
def docTboxImage : Doc :=
  { version := some sV530, width := some 1080, height := some 1080,
    objects := .cons
      (tbox { etype := sTextbox, left := 0, top := 0, width := 100, height := 100 })
      (.cons (tbox { etype := sImage, left := 0, top := 0, width := 100, height := 100 })
        ElementList.nil) }

/-- The six ordered type pairs the source's allow-list exempts. -/
def allowPairs : List (String × String) :=
  [(sImage, sImage), (sRect, sImage), (sRect, sTextbox),
   (sImage, sRect), (sImage, sTextbox), (sTextbox, sImage)]

/-- A gradient whose keyed mapping lists the offset-1 stop before the
offset-0 stop (legal in a Python dict; insertion order is preserved). -/
def docGradRev : Doc :=
  { version := some sV530, width := some 100, height := some 100,
    objects := .cons
      (.mk { etype := sRect, left := 0, top := 0, width := 10, height := 10,
             fill := Fill.gradientMap sLinear [(1, "#000000"), (0, "#FFFFFF")] }
        ElementList.nil)
      ElementList.nil }

/-- A group at (500, 500) with a textbox child at relative (10, 10): the
boundary validator checks the child against the canvas in relative
coordinates and without the font-based height estimate, while the overlap
detector uses absolute coordinates and the estimate. -/
def docGroupChild : Doc :=
  { version := some sV530, width := some 1080, height := some 1080,
    objects := .cons
      (.mk { etype := sGroup, left := 500, top := 500, width := 600, height := 600 }
        (.cons (tbox { etype := sTextbox, left := 10, top := 10, width := 50, height := 10,
                       fontSize := 40, text := "A\nB" })
          ElementList.nil))
      ElementList.nil }

/-- A plain rect core used to witness the amended bounding-box equivalence. -/
def coreRectW : ElementCore :=
  { etype := sRect, left := 5, top := 6, width := 30, height := 20, scaleX := 2 }

/-- A document whose only violation is a right-boundary overflow that the
repairer can fix by repositioning (effective width fits the canvas). -/
def docBoundaryOK : Doc :=
  { version := some sV530, width := some 100, height := some 100,
    objects := .cons
      (.mk { etype := sRect, left := 60, top := 0, width := 50, height := 10 } ElementList.nil)
      ElementList.nil }

/-- A document whose only violation is a right-boundary overflow of an
element wider than the canvas at `scaleX = 1` and `left = 60 > cw - 50`:
the width floor leaves it intruding after repair. -/
def docBoundaryFloor : Doc :=
  { version := some sV530, width := some 100, height := some 100,
    objects := .cons
      (.mk { etype := sRect, left := 60, top := 0, width := 200, height := 10 } ElementList.nil)
      ElementList.nil }

/-- A parser that always fails (stand-in for `json.loads` on non-JSON). -/
def parseNone : String → Option Doc := fun _ => Option.none

/-- A serializer stub for environments whose parser never succeeds. -/
def dumpsEmpty : Doc → String := fun _ => sEmpty

/-- A loop environment whose critic always answers `"CONTINUE: improve"`
and whose feedback LLM always raises. -/
def envContinue : LoopEnv :=
  { parse := parseNone, dumps := dumpsEmpty,
    critique := fun _ => some ("CONTINUE: improve"),
    applyLLM := fun _ => Option.none }

/-- Four fan-out task outcomes of which the second fails. -/
def outcomesW : List TaskOutcome :=
  [TaskOutcome.ok ("a1"), TaskOutcome.exn ("boom"), TaskOutcome.ok ("a3"), TaskOutcome.ok ("a4")]

/-- A completion order of `outcomesW` different from submission order. -/
def completionW : List TaskOutcome :=
  [TaskOutcome.ok ("a3"), TaskOutcome.exn ("boom"), TaskOutcome.ok ("a1"), TaskOutcome.ok ("a4")]

end Banner

namespace Banner

/-! # Theorems -/

/-- C4: on a 1080x1080 canvas, with one textbox at `top=100, fontSize=40,
lineHeight=1.2, text="A\nB"` (effective height 96) and a second textbox at
`top=150`, one pass of `fix_text_overlaps` moves the second textbox to
`top = 100 + 96 + 40 = 236` and leaves the first textbox's top at 100. -/
theorem c4_overlap_resolver_concrete_scenario :
    textTops (fix_text_overlaps docScenario (1080, 1080)) = [100, 236] := by
  have h1 : splitNL (("A\nB").data) = [['A'], ['B']] := by decide
  have h2 : splitNL (("CTA").data) = [['C', 'T', 'A']] := by decide
  norm_num [docScenario, tbox, fix_text_overlaps, resolvedTextRecs, sortedTextRecs,
    collectTextList, collectTextElem, get_element_bounds, effW, effH, estH, lineCount,
    h1, h2, sortTByTop, insTRec, resolveList, pushOne, findFirst, shrinkIfOffCanvas,
    writeBackList, writeBackElem, textTops]

/-! ### C9: fan-out pool size and partial-failure aggregation -/

theorem aggregate_length_eq_countP (l : List TaskOutcome) :
    (aggregateResults l).length = l.countP isSuccess := by
  induction l with
  | nil => rfl
  | cons o rest ih =>
    cases o <;>
      simp [aggregateResults, List.filterMap_cons, List.countP_cons, isSuccess] at * <;>
      omega

/-- C9: the asset fan-out sizes its worker pool as `min(asset_count, 4)`;
results are appended in completion order (any permutation of the outcomes),
the aggregate has exactly one entry per successful task, and a failing task
does not remove any sibling's entry. -/
theorem c9_fanout_partial_failure (outcomes completionOrder : List TaskOutcome)
    (hperm : completionOrder.Perm outcomes) :
    fanoutWorkers outcomes.length = min outcomes.length 4 ∧
    (aggregateResults completionOrder).length = outcomes.countP isSuccess ∧
    ∀ a, TaskOutcome.ok a ∈ outcomes → a ∈ aggregateResults completionOrder := by
  refine ⟨rfl, ?_, ?_⟩
  · rw [← aggregate_length_eq_countP]
    exact (hperm.filterMap _).length_eq
  · intro a ha
    have hmem : a ∈ aggregateResults outcomes :=
      List.mem_filterMap.2 ⟨TaskOutcome.ok a, ha, rfl⟩
    exact (hperm.filterMap _).mem_iff.2 hmem

/-- C9 witness: four tasks, task 2 failing, completed out of order: three
aggregated entries (`countP` computes to 3) and tasks 1/3/4 all present. -/
theorem c9_fanout_witness :
    fanoutWorkers outcomesW.length = min outcomesW.length 4 ∧
    (aggregateResults completionW).length = outcomesW.countP isSuccess ∧
    ∀ a, TaskOutcome.ok a ∈ outcomesW → a ∈ aggregateResults completionW :=
  c9_fanout_partial_failure outcomesW completionW (by decide)

/-! ### C10: the repairer never produces a negative position -/

theorem fixRight_top (cw : Num) (c0 c : ElementCore) : (fixRight cw c0 c).top = c.top := by
  unfold fixRight
  split_ifs <;> rfl

theorem fixRight_etype (cw : Num) (c0 c : ElementCore) :
    (fixRight cw c0 c).etype = c.etype := by
  unfold fixRight
  split_ifs <;> rfl

theorem fixBottom_left (ch : Num) (c0 c : ElementCore) :
    (fixBottom ch c0 c).left = c.left := by
  unfold fixBottom
  split_ifs <;> rfl

theorem fixBottom_etype (ch : Num) (c0 c : ElementCore) :
    (fixBottom ch c0 c).etype = c.etype := by
  unfold fixBottom
  split_ifs <;> rfl

theorem fixRight_left_nonneg (cw : Num) (c0 c : ElementCore) (h : 0 ≤ c.left) :
    0 ≤ (fixRight cw c0 c).left := by
  unfold fixRight
  split_ifs with h1 h2 h3 h4
  · exact le_max_left 0 _
  · exact h
  · exact absurd h4 (not_lt.2 (le_max_left _ _))
  · exact h
  · exact h

theorem fixBottom_top_nonneg (ch : Num) (c0 c : ElementCore) (h : 0 ≤ c.top) :
    0 ≤ (fixBottom ch c0 c).top := by
  unfold fixBottom
  split_ifs with h1 h2 h3 h4
  · exact le_max_left 0 _
  · exact h
  · exact absurd h4 (not_lt.2 (le_max_left _ _))
  · exact h
  · exact h

theorem fixCoreBounds_left_eq (cw ch : Num) (c : ElementCore) :
    (fixCoreBounds cw ch c).left =
      if c.left < 0 then 0 else (fixRight cw c c).left := by
  simp only [fixCoreBounds]
  by_cases hl : c.left < 0 <;> by_cases ht : c.top < 0 <;>
    simp [hl, ht, fixBottom_left]

theorem fixCoreBounds_top_eq (cw ch : Num) (c : ElementCore) :
    (fixCoreBounds cw ch c).top =
      if c.top < 0 then 0 else (fixBottom ch c (fixRight cw c c)).top := by
  simp only [fixCoreBounds]
  by_cases hl : c.left < 0 <;> by_cases ht : c.top < 0 <;>
    simp [hl, ht]

theorem fixCoreBounds_pos (cw ch : Num) (c : ElementCore) :
    0 ≤ (fixCoreBounds cw ch c).left ∧ 0 ≤ (fixCoreBounds cw ch c).top := by
  rw [fixCoreBounds_left_eq, fixCoreBounds_top_eq]
  constructor
  · split_ifs with hl
    · exact le_refl 0
    · exact fixRight_left_nonneg cw c c (not_lt.1 hl)
  · split_ifs with ht
    · exact le_refl 0
    · exact fixBottom_top_nonneg ch c _ (by rw [fixRight_top]; exact not_lt.1 ht)

theorem fixCoreBounds_etype (cw ch : Num) (c : ElementCore) :
    (fixCoreBounds cw ch c).etype = c.etype := by
  simp only [fixCoreBounds]
  by_cases hl : c.left < 0 <;> by_cases ht : c.top < 0 <;>
    simp [hl, ht, fixBottom_etype, fixRight_etype]

mutual
theorem fixElemBounds_posOK (cw ch : Num) (e : Element) :
    elemPosOK (fixElemBounds cw ch e) := by
  cases e with
  | mk c cs =>
    show elemPosOK (.mk (fixCoreBounds cw ch c) _)
    rw [elemPosOK]
    refine ⟨fixCoreBounds_pos cw ch c, ?_⟩
    rw [fixCoreBounds_etype]
    by_cases hg : c.etype = sGroup
    · simp only [hg, if_pos rfl]
      exact fixListBounds_posOK cw ch cs
    · simp [hg]
theorem fixListBounds_posOK (cw ch : Num) (l : ElementList) :
    listPosOK (fixListBounds cw ch l) := by
  cases l with
  | nil => trivial
  | cons e es =>
    exact ⟨fixElemBounds_posOK cw ch e, fixListBounds_posOK cw ch es⟩
end

theorem findFirst_some_mem {α : Type} (p : α → Prop) [DecidablePred p] (l : List α) (a : α)
    (h : findFirst p l = some a) : a ∈ l := by
  induction l with
  | nil => simp [findFirst] at h
  | cons x xs ih =>
    rw [findFirst] at h
    by_cases hx : p x
    · rw [if_pos hx] at h
      exact (Option.some.injEq _ _ ▸ h) ▸ List.mem_cons_self x xs
    · rw [if_neg hx] at h
      exact List.mem_cons_of_mem x (ih h)

theorem findFirst_some_pred {α : Type} (p : α → Prop) [DecidablePred p] (l : List α) (a : α)
    (h : findFirst p l = some a) : p a := by
  induction l with
  | nil => simp [findFirst] at h
  | cons x xs ih =>
    rw [findFirst] at h
    by_cases hx : p x
    · rw [if_pos hx] at h
      cases h
      exact hx
    · rw [if_neg hx] at h
      exact ih h

theorem mem_insTRec (x y : TRec) (l : List TRec) : x ∈ insTRec y l → x = y ∨ x ∈ l := by
  induction l with
  | nil => simp [insTRec]
  | cons z zs ih =>
    rw [insTRec]
    by_cases hz : z.bTop ≤ y.bTop
    · rw [if_pos hz]
      intro hx
      rcases List.mem_cons.1 hx with h | h
      · exact Or.inr (h ▸ List.mem_cons_self z zs)
      · rcases ih h with h' | h'
        · exact Or.inl h'
        · exact Or.inr (List.mem_cons_of_mem z h')
    · rw [if_neg hz]
      intro hx
      rcases List.mem_cons.1 hx with h | h
      · exact Or.inl h
      · exact Or.inr h

theorem mem_sortT_aux (l : List TRec) :
    ∀ acc x, x ∈ l.foldl (fun a y => insTRec y a) acc → x ∈ acc ∨ x ∈ l := by
  induction l with
  | nil => intro acc x h; exact Or.inl h
  | cons z zs ih =>
    intro acc x h
    rcases ih (insTRec z acc) x h with h' | h'
    · rcases mem_insTRec x z acc h' with h'' | h''
      · exact Or.inr (h'' ▸ List.mem_cons_self z zs)
      · exact Or.inl h''
    · exact Or.inr (List.mem_cons_of_mem z h')

theorem mem_sortT (l : List TRec) (x : TRec) (h : x ∈ sortTByTop l) : x ∈ l := by
  rcases mem_sortT_aux l [] x h with h' | h'
  · simp at h'
  · exact h'

theorem shrinkIfOffCanvas_objTop (ch : Num) (cur : TRec) :
    (shrinkIfOffCanvas ch cur).objTop = cur.objTop := by
  unfold shrinkIfOffCanvas
  split_ifs <;> rfl

theorem pushOne_objTop_nonneg (ch : Num) (done : List TRec) (cur : TRec)
    (h : 0 ≤ cur.objTop) : 0 ≤ (pushOne ch done cur).objTop := by
  unfold pushOne
  cases hf : findFirst (fun p => cur.bTop < p.bBottom + 40) done with
  | none => exact h
  | some p =>
    rw [shrinkIfOffCanvas_objTop]
    show (0 : Num) ≤ max 40 (p.bBottom + 40 - cur.parentTop)
    have : (0 : Num) ≤ 40 := by norm_num
    exact le_trans this (le_max_left _ _)

theorem resolveList_objTop_nonneg (ch : Num) (l : List TRec) :
    ∀ done, (∀ r ∈ l, 0 ≤ r.objTop) → ∀ r ∈ resolveList ch done l, 0 ≤ r.objTop := by
  induction l with
  | nil => intro done _ r hr; simp [resolveList] at hr
  | cons cur rest ih =>
    intro done hl r hr
    rw [resolveList] at hr
    rcases List.mem_cons.1 hr with h | h
    · subst h
      exact pushOne_objTop_nonneg ch done cur (hl cur (List.mem_cons_self _ _))
    · exact ih _ (fun s hs => hl s (List.mem_cons_of_mem _ hs)) r h

mutual
theorem collectTextElem_objTop (pl pt : Num) (k : Nat) (e : Element) (he : elemPosOK e) :
    ∀ r ∈ (collectTextElem pl pt k e).1, 0 ≤ r.objTop := by
  cases e with
  | mk c cs =>
    intro r hr
    rw [collectTextElem] at hr
    rw [elemPosOK] at he
    by_cases ht : c.etype = sTextbox
    · rw [if_pos ht] at hr
      simp at hr
      rw [hr]
      exact he.1.2
    · rw [if_neg ht] at hr
      by_cases hg : c.etype = sGroup
      · rw [if_pos hg] at hr
        have hcs : listPosOK cs := by
          have := he.2
          rwa [if_pos hg] at this
        exact collectTextList_objTop _ _ k cs hcs r hr
      · rw [if_neg hg] at hr
        simp at hr
theorem collectTextList_objTop (pl pt : Num) (k : Nat) (l : ElementList) (hl : listPosOK l) :
    ∀ r ∈ (collectTextList pl pt k l).1, 0 ≤ r.objTop := by
  cases l with
  | nil => intro r hr; simp [collectTextList] at hr
  | cons e es =>
    intro r hr
    rw [collectTextList] at hr
    simp only [List.mem_append] at hr
    rw [listPosOK] at hl
    rcases hr with h | h
    · exact collectTextElem_objTop pl pt k e hl.1 r h
    · exact collectTextList_objTop pl pt _ es hl.2 r h
end

mutual
theorem writeBackElem_posOK (resolved : List TRec)
    (hres : ∀ r ∈ resolved, 0 ≤ r.objTop) (k : Nat) (e : Element) (he : elemPosOK e) :
    elemPosOK (writeBackElem resolved k e).1 := by
  cases e with
  | mk c cs =>
    rw [elemPosOK] at he
    rw [writeBackElem]
    by_cases ht : c.etype = sTextbox
    · rw [if_pos ht]
      cases hf : findFirst (fun r => r.idx = k) resolved with
      | none =>
        show elemPosOK (.mk c cs)
        rw [elemPosOK]
        exact he
      | some r =>
        show elemPosOK (.mk { c with top := r.objTop, fontSize := r.fontSize } cs)
        rw [elemPosOK]
        refine ⟨⟨he.1.1, hres r (findFirst_some_mem _ _ _ hf)⟩, ?_⟩
        show (if c.etype = sGroup then listPosOK cs else True)
        exact he.2
    · rw [if_neg ht]
      by_cases hg : c.etype = sGroup
      · rw [if_pos hg]
        show elemPosOK (.mk c (writeBackList resolved k cs).1)
        rw [elemPosOK]
        refine ⟨he.1, ?_⟩
        rw [if_pos hg]
        have hcs : listPosOK cs := by
          have := he.2
          rwa [if_pos hg] at this
        exact writeBackList_posOK resolved hres k cs hcs
      · rw [if_neg hg]
        rw [elemPosOK]
        exact he
theorem writeBackList_posOK (resolved : List TRec)
    (hres : ∀ r ∈ resolved, 0 ≤ r.objTop) (k : Nat) (l : ElementList) (hl : listPosOK l) :
    listPosOK (writeBackList resolved k l).1 := by
  cases l with
  | nil => trivial
  | cons e es =>
    rw [listPosOK] at hl
    rw [writeBackList]
    show listPosOK (.cons (writeBackElem resolved k e).1 _)
    rw [listPosOK]
    exact ⟨writeBackElem_posOK resolved hres k e hl.1,
      writeBackList_posOK resolved hres _ es hl.2⟩
end

theorem fix_text_overlaps_posOK (d : Doc) (res : Num × Num) (hd : listPosOK d.objects) :
    listPosOK (fix_text_overlaps d res).objects := by
  unfold fix_text_overlaps
  have hcollect := collectTextList_objTop 0 0 0 d.objects hd
  have hsorted : ∀ r ∈ sortedTextRecs d, 0 ≤ r.objTop := by
    intro r hr
    exact hcollect r (mem_sortT _ r hr)
  have hresolved : ∀ r ∈ resolvedTextRecs d res, 0 ≤ r.objTop :=
    resolveList_objTop_nonneg res.2 (sortedTextRecs d) [] hsorted
  exact writeBackList_posOK _ hresolved 0 d.objects hd

/-! ### C2: overlap resolver spacing after one pass -/

theorem shrinkIfOffCanvas_bTop (ch : Num) (cur : TRec) :
    (shrinkIfOffCanvas ch cur).bTop = cur.bTop := by
  unfold shrinkIfOffCanvas
  split_ifs <;> rfl

/-- Processing any element against a non-empty prefix list leaves its final
top at least 40px below the bottom of the *first* element of that list:
either the scan stops at the head (pushing below it), or the current top
already cleared the head and any later push only moves the element down. -/
theorem pushOne_bTop_ge_head (ch : Num) (d0 : TRec) (ds : List TRec) (cur : TRec) :
    d0.bBottom + 40 ≤ (pushOne ch (d0 :: ds) cur).bTop := by
  unfold pushOne
  rw [findFirst]
  by_cases h0 : cur.bTop < d0.bBottom + 40
  · rw [if_pos h0, shrinkIfOffCanvas_bTop]
    show d0.bBottom + 40 ≤ max 40 (d0.bBottom + 40 - cur.parentTop) + cur.parentTop
    have := le_max_right (40 : Num) (d0.bBottom + 40 - cur.parentTop)
    linarith
  · rw [if_neg h0]
    cases hf : findFirst (fun p => cur.bTop < p.bBottom + 40) ds with
    | none => exact not_lt.1 h0
    | some p =>
      rw [shrinkIfOffCanvas_bTop]
      have hp : cur.bTop < p.bBottom + 40 :=
        findFirst_some_pred (fun q => cur.bTop < q.bBottom + 40) ds p hf
      have h0' := not_lt.1 h0
      have := le_max_right (40 : Num) (p.bBottom + 40 - cur.parentTop)
      show d0.bBottom + 40 ≤ max 40 (p.bBottom + 40 - cur.parentTop) + cur.parentTop
      linarith

theorem resolveList_bTop_ge (ch : Num) (d0 : TRec) :
    ∀ (l ds : List TRec), ∀ r ∈ resolveList ch (d0 :: ds) l, d0.bBottom + 40 ≤ r.bTop := by
  intro l
  induction l with
  | nil => intro ds r hr; simp [resolveList] at hr
  | cons cur rest ih =>
    intro ds r hr
    rw [resolveList] at hr
    rcases List.mem_cons.1 hr with h | h
    · subst h
      exact pushOne_bTop_ge_head ch d0 ds cur
    · have heq : (d0 :: ds) ++ [pushOne ch (d0 :: ds) cur] =
          d0 :: (ds ++ [pushOne ch (d0 :: ds) cur]) := rfl
      rw [heq] at h
      exact ih _ r h

/-- C2 amended: after one `fix_text_overlaps` pass, the first element of the
resolver's sorted list is unchanged, and *every later element* ends with
`top ≥ first.bottom + 40`.  (The adjacent-pair bound of the original claim
fails: the inner scan `break`s at the first conflicting earlier element, so
an element can be left overlapping a nearer predecessor even when no
font-size shrink occurred — see the counterexample.) -/
theorem c2_resolver_first_element_spacing (d : Doc) (res : Num × Num)
    (r0 : TRec) (rest : List TRec) (h : sortedTextRecs d = r0 :: rest) :
    (resolvedTextRecs d res).head? = some r0 ∧
    ∀ r ∈ (resolvedTextRecs d res).tail, r0.bBottom + 40 ≤ r.bTop := by
  unfold resolvedTextRecs
  rw [h, resolveList]
  have hp0 : pushOne res.2 [] r0 = r0 := rfl
  rw [hp0]
  refine ⟨rfl, ?_⟩
  intro r hr
  simp only [List.tail_cons] at hr
  exact resolveList_bTop_ge res.2 r0 rest [] r hr

/-- C2 witness: the amended statement applied to the spec's own scenario
document, whose sorted list is `[recScenario0, recScenario1]`. -/
theorem c2_resolver_witness :
    (resolvedTextRecs docScenario (1080, 1080)).head? = some recScenario0 ∧
    ∀ r ∈ (resolvedTextRecs docScenario (1080, 1080)).tail,
      recScenario0.bBottom + 40 ≤ r.bTop :=
  c2_resolver_first_element_spacing docScenario (1080, 1080) recScenario0 [recScenario1]
    (by
      have h1 : splitNL (("A\nB").data) = [['A'], ['B']] := by decide
      have h2 : splitNL (("CTA").data) = [['C', 'T', 'A']] := by decide
      norm_num [docScenario, tbox, sortedTextRecs, collectTextList, collectTextElem,
        get_element_bounds, effW, effH, estH, lineCount, h1, h2, sortTByTop, insTRec,
        recScenario0, recScenario1])

/-- C2 counterexample: on `docThree` (three top-level textboxes, no
font-size shrink triggered: all font sizes stay `[30, 100, 30]`, each above
the 24px floor), the third element of the sorted list ends with
`top = 76 < bottom(second) + 40 = 416`: the claimed adjacent-pair spacing
and the claimed comparison against *every* earlier element both fail,
because the resolver `break`s at the first conflicting earlier element. -/
theorem c2_resolver_counterexample :
    ((resolvedTextRecs docThree (1080, 1080)).getD 2 default).bTop <
      ((resolvedTextRecs docThree (1080, 1080)).getD 1 default).bBottom + 40 ∧
    textFontSizes (fix_text_overlaps docThree (1080, 1080)) = [30, 100, 30] ∧
    textFontSizes docThree = [30, 100, 30] := by
  have hA : splitNL (("A").data) = [['A']] := by decide
  have hX : splitNL (("X").data) = [['X']] := by decide
  have hC : splitNL (("C").data) = [['C']] := by decide
  norm_num [docThree, tbox, resolvedTextRecs, sortedTextRecs, collectTextList,
    collectTextElem, get_element_bounds, effW, effH, estH, lineCount, hA, hX, hC,
    sortTByTop, insTRec, resolveList, pushOne, findFirst, shrinkIfOffCanvas,
    fix_text_overlaps, writeBackList, writeBackElem, textFontSizes]

/-! ### C3: the overlap validator's allow-list -/

theorem mem_overlapViolationPairs (l : List CElem) (i j : Nat) :
    (i, j) ∈ overlapViolationPairs l ↔
      i < j ∧ j < l.length ∧ flaggedPair (l.getD i default) (l.getD j default) = true := by
  unfold overlapViolationPairs
  simp only [List.mem_flatMap, List.mem_filterMap, List.mem_range]
  constructor
  · rintro ⟨i', _, j', hj', hij⟩
    split_ifs at hij with hc
    cases hij
    exact ⟨hc.1, hj', hc.2⟩
  · rintro ⟨hij, hjl, hflag⟩
    exact ⟨i, lt_trans hij hjl, j, hjl, by rw [if_pos ⟨hij, hflag⟩]⟩

theorem allowedOverlap_iff_mem (t1 t2 : String) :
    allowedOverlap t1 t2 = true ↔ (t1, t2) ∈ allowPairs := by
  unfold allowedOverlap allowPairs
  rw [decide_eq_true_eq]
  simp only [List.mem_cons, List.mem_singleton, Prod.mk.injEq, List.not_mem_nil, or_false]
  tauto

/-- C3 amended: the overlap validator reports exactly the pairs `(i, j)`
(`i` listed before `j`) whose 20px-padded boxes intersect and whose ordered
type pair lies outside the *six*-pair allow-list `{(image, image),
(rect, image), (rect, textbox), (image, rect), (image, textbox),
(textbox, image)}` — so, contrary to the original claim, an image listed
before a rect and a textbox listed before an image are also exempt. -/
theorem c3_overlap_allowlist_characterization (l : List CElem) (i j : Nat) :
    (i, j) ∈ overlapViolationPairs l ↔
      i < j ∧ j < l.length ∧
      boxes_overlap (l.getD i default).bounds (l.getD j default).bounds 20 = true ∧
      ((l.getD i default).etype, (l.getD j default).etype) ∉ allowPairs := by
  rw [mem_overlapViolationPairs]
  simp only [flaggedPair, Bool.and_eq_true, Bool.not_eq_true', ← allowedOverlap_iff_mem,
    Bool.not_eq_true]

/-- C3 counterexample: in `docTboxImage` a textbox is listed before an
image whose padded boxes intersect; the claim says such a pair is not
exempt, yet the validator reports no violation at all. -/
theorem c3_overlap_allowlist_counterexample :
    boxes_overlap ((collectList 0 0 docTboxImage.objects).getD 0 default).bounds
        ((collectList 0 0 docTboxImage.objects).getD 1 default).bounds 20 = true ∧
    validate_text_overlaps docTboxImage = [] := by
  have h0 : splitNL (("").data) = [[]] := by decide
  have e1 : (("textbox" : String) = "group") = False := by simp
  have e2 : (("image" : String) = "group") = False := by simp
  have e3 : (("image" : String) = "textbox") = False := by simp
  have e4 : (("textbox" : String) = "image") = False := by simp
  have e5 : (("textbox" : String) = "rect") = False := by simp
  have e6 : (("image" : String) = "rect") = False := by simp
  norm_num [docTboxImage, tbox, collectList, collectElem, get_element_bounds, effW, effH,
    estH, lineCount, h0, boxes_overlap, validate_text_overlaps, overlapViolationPairs,
    flaggedPair, allowedOverlap, textGapViols, sortCByTop, insByTop, List.filter,
    List.range_succ, List.flatMap, List.filterMap_cons,
    e1, e2, e3, e4, e5, e6]

/-! ### C5: gradient keyed-mapping normalization -/

theorem fixRight_fill (cw : Num) (c0 c : ElementCore) : (fixRight cw c0 c).fill = c.fill := by
  unfold fixRight
  split_ifs <;> rfl

theorem fixBottom_fill (ch : Num) (c0 c : ElementCore) : (fixBottom ch c0 c).fill = c.fill := by
  unfold fixBottom
  split_ifs <;> rfl

theorem fixCoreBounds_fill (cw ch : Num) (c : ElementCore) :
    (fixCoreBounds cw ch c).fill = c.fill := by
  simp only [fixCoreBounds]
  by_cases hl : c.left < 0 <;> by_cases ht : c.top < 0 <;>
    simp [hl, ht, fixBottom_fill, fixRight_fill]

mutual
theorem fills_fixGradElem (e : Element) :
    elemFills (fixGradElem e) = (elemFills e).map fixFillGradient := by
  cases e with
  | mk c cs =>
    show elemFills (.mk { c with fill := fixFillGradient c.fill } (fixGradList cs)) = _
    rw [elemFills, elemFills]
    simp only [List.map_cons]
    exact congrArg _ (fills_fixGradList cs)
theorem fills_fixGradList (l : ElementList) :
    listFills (fixGradList l) = (listFills l).map fixFillGradient := by
  cases l with
  | nil => rfl
  | cons e es =>
    show listFills (.cons (fixGradElem e) (fixGradList es)) = _
    rw [listFills, listFills, List.map_append, fills_fixGradElem e, fills_fixGradList es]
end

mutual
theorem fills_fixTextTypeElem (e : Element) : elemFills (fixTextTypeElem e) = elemFills e := by
  cases e with
  | mk c cs =>
    rw [fixTextTypeElem]
    by_cases ht : c.etype = sText
    · rw [if_pos ht]
      have hng : ¬(sTextbox : String) = sGroup := by decide
      rw [if_neg hng]
      rw [elemFills, elemFills]
    · rw [if_neg ht]
      by_cases hg : c.etype = sGroup
      · rw [if_pos hg, elemFills, elemFills]
        exact congrArg _ (fills_fixTextTypeList cs)
      · rw [if_neg hg]
theorem fills_fixTextTypeList (l : ElementList) :
    listFills (fixTextTypeList l) = listFills l := by
  cases l with
  | nil => rfl
  | cons e es =>
    show listFills (.cons (fixTextTypeElem e) (fixTextTypeList es)) = _
    rw [listFills, listFills, fills_fixTextTypeElem e, fills_fixTextTypeList es]
end

mutual
theorem fills_fixElemBounds (cw ch : Num) (e : Element) :
    elemFills (fixElemBounds cw ch e) = elemFills e := by
  cases e with
  | mk c cs =>
    rw [fixElemBounds]
    by_cases hg : c.etype = sGroup
    · rw [if_pos hg, elemFills, elemFills, fixCoreBounds_fill]
      exact congrArg _ (fills_fixListBounds cw ch cs)
    · rw [if_neg hg, elemFills, elemFills, fixCoreBounds_fill]
theorem fills_fixListBounds (cw ch : Num) (l : ElementList) :
    listFills (fixListBounds cw ch l) = listFills l := by
  cases l with
  | nil => rfl
  | cons e es =>
    show listFills (.cons (fixElemBounds cw ch e) (fixListBounds cw ch es)) = _
    rw [listFills, listFills, fills_fixElemBounds cw ch e, fills_fixListBounds cw ch es]
end

mutual
theorem fills_writeBackElem (resolved : List TRec) (k : Nat) (e : Element) :
    elemFills (writeBackElem resolved k e).1 = elemFills e := by
  cases e with
  | mk c cs =>
    rw [writeBackElem]
    by_cases ht : c.etype = sTextbox
    · rw [if_pos ht]
      cases findFirst (fun r => r.idx = k) resolved with
      | none => rfl
      | some r => rw [elemFills, elemFills]
    · rw [if_neg ht]
      by_cases hg : c.etype = sGroup
      · rw [if_pos hg]
        show elemFills (.mk c (writeBackList resolved k cs).1) = _
        rw [elemFills, elemFills]
        exact congrArg _ (fills_writeBackList resolved k cs)
      · rw [if_neg hg]
theorem fills_writeBackList (resolved : List TRec) (k : Nat) (l : ElementList) :
    listFills (writeBackList resolved k l).1 = listFills l := by
  cases l with
  | nil => rfl
  | cons e es =>
    rw [writeBackList]
    show listFills (.cons (writeBackElem resolved k e).1
      (writeBackList resolved (writeBackElem resolved k e).2 es).1) = _
    rw [listFills, listFills, fills_writeBackElem resolved k e,
      fills_writeBackList resolved _ es]
end

/-- C5 amended: `fix_programmatic_errors` maps every fill of the document
through `fixFillGradient`: a keyed-mapping `colorStops` on a linear/radial
gradient becomes the ordered sequence of `{offset, color}` records *in the
mapping's insertion order* (the source does not sort by offset; the claimed
sorting only coincides for mappings already listed in ascending key order,
such as `{"0": ..., "1": ...}`), and every other fill is unchanged. -/
theorem c5_gradient_normalization (d : Doc) (errors : List VCat) (res : Num × Num) :
    listFills (fix_programmatic_errors d errors res).objects =
      (listFills d.objects).map fixFillGradient := by
  have hcv : (fixCanvasVersion d res).objects = d.objects := rfl
  unfold fix_programmatic_errors
  by_cases h : errors.any VCat.mentionsOverlap
  · rw [if_pos h]
    unfold fix_text_overlaps
    rw [fills_writeBackList, fills_fixListBounds, fills_fixTextTypeList, fills_fixGradList,
      hcv]
  · rw [if_neg h]
    rw [fills_fixListBounds, fills_fixTextTypeList, fills_fixGradList, hcv]

/-- C5 counterexample: the keyed mapping listing offset 1 before offset 0
is converted to a sequence still listing offset 1 first — not sorted
ascending by numeric offset as the claim states. -/
theorem c5_gradient_counterexample :
    listFills (fix_programmatic_errors docGradRev [] (100, 100)).objects =
      [Fill.gradientList sLinear [(1, "#000000"), (0, "#FFFFFF")]] ∧
    Fill.gradientList sLinear [(1, "#000000"), (0, "#FFFFFF")] ≠
      Fill.gradientList sLinear [(0, "#FFFFFF"), (1, "#000000")] := by
  constructor
  · have e1 : (("rect" : String) = "text") = False := by simp
    have e2 : (("rect" : String) = "group") = False := by simp
    have e3 : (("rect" : String) = "textbox") = False := by simp
    norm_num [docGradRev, fix_programmatic_errors, fixCanvasVersion, fixGradList,
      fixGradElem, fixFillGradient, fixTextTypeList, fixTextTypeElem, fixListBounds,
      fixElemBounds, fixCoreBounds, fixRight, fixBottom, listFills, elemFills,
      e1, e2, e3]
  · intro h
    rw [Fill.gradientList.injEq] at h
    have h1 : ((1 : Num), "#000000") = ((0 : Num), "#FFFFFF") := by
      have := h.2
      exact (List.cons.injEq _ _ _ _ ▸ this).1
    have : (1 : Num) = 0 := (Prod.mk.injEq _ _ _ _ ▸ h1).1
    norm_num at this

/-! ### C8: boundary-validator box vs overlap-detector box -/

/-- C8 amended: for an element for which the textbox estimate does not
apply (not a textbox, or estimate dominated by the declared effective
height), the overlap detector's box is the boundary validator's box shifted
by the accumulated parent offset.  The boundary validator itself always
works at zero offset — it checks group children in their *relative*
coordinates — and never applies the textbox estimate, so the two boxes
coincide exactly for top-level elements of this kind and can differ for
group children and textboxes (see the counterexample). -/
theorem c8_bounding_box_equivalence (c : ElementCore) (pl pt : Num)
    (h : c.etype ≠ sTextbox ∨ estH c ≤ effH c) :
    get_element_bounds c pl pt = offsetBox pl pt (boundaryBoxOf c) := by
  have hmax : (if c.etype = sTextbox then max (effH c) (estH c) else effH c) = effH c := by
    rcases h with h | h
    · rw [if_neg h]
    · by_cases ht : c.etype = sTextbox
      · rw [if_pos ht, max_eq_left h]
      · rw [if_neg ht]
  simp only [get_element_bounds, offsetBox, boundaryBoxOf, hmax, Box.mk.injEq,
    eq_self_iff_true, true_and, and_true]
  constructor <;> ring

/-- C8 witness: a scaled rect at parent offset (3, 7). -/
theorem c8_bounding_box_equivalence_witness :
    get_element_bounds coreRectW 3 7 = offsetBox 3 7 (boundaryBoxOf coreRectW) :=
  c8_bounding_box_equivalence coreRectW 3 7 (Or.inl (by decide))

/-- C8 counterexample: in `docGroupChild`, the second checked element (the
group's textbox child) gets box (10, 10, 60, 20) from the boundary
validator — relative coordinates, no estimate — but box
(510, 510, 560, 606) from the overlap detector. -/
theorem c8_bounding_box_counterexample :
    (boundaryBoxes docGroupChild).getD 1 default ≠
      (overlapBoxes docGroupChild).getD 1 default := by
  have h1 : splitNL (("A\nB").data) = [['A'], ['B']] := by decide
  have e1 : (("textbox" : String) = "group") = False := by simp
  have e2 : (("group" : String) = "textbox") = False := by simp
  norm_num [docGroupChild, tbox, boundaryBoxes, boundaryBoxesList, boundaryBoxesElem,
    boundaryBoxOf, overlapBoxes, collectList, collectElem, get_element_bounds, effW, effH,
    estH, lineCount, h1, e1, e2, Box.mk.injEq]

/-! ### C1: boundary repair eliminates boundary violations -/

theorem fixRight_of_fits (cw : Num) (c0 c : ElementCore)
    (hw : c0.width * c0.scaleX ≤ cw) :
    fixRight cw c0 c =
      if c0.left + c0.width * c0.scaleX > cw
      then { c with left := max 0 (cw - c0.width * c0.scaleX) } else c := by
  unfold fixRight
  split_ifs <;> rfl

theorem fixBottom_of_fits (ch : Num) (c0 c : ElementCore)
    (hh : c0.height * c0.scaleY ≤ ch) :
    fixBottom ch c0 c =
      if c0.top + c0.height * c0.scaleY > ch
      then { c with top := max 0 (ch - c0.height * c0.scaleY) } else c := by
  unfold fixBottom
  split_ifs <;> rfl

/-- Under the fits-hypotheses the whole per-element fix is: clamp a
negative `left`/`top` to 0, otherwise slide an overflowing edge back to the
canvas edge; size fields are untouched. -/
theorem fixCoreBounds_of_fits (cw ch : Num) (c : ElementCore)
    (hw : effW c ≤ cw) (hh : effH c ≤ ch) :
    fixCoreBounds cw ch c =
      { c with
        left := if c.left < 0 then 0
                else if c.left + effW c > cw then max 0 (cw - effW c) else c.left,
        top := if c.top < 0 then 0
               else if c.top + effH c > ch then max 0 (ch - effH c) else c.top } := by
  have hw' : c.width * c.scaleX ≤ cw := hw
  have hh' : c.height * c.scaleY ≤ ch := hh
  simp only [fixCoreBounds, fixRight_of_fits cw c c hw', fixBottom_of_fits ch c _ hh']
  by_cases h1 : c.left + c.width * c.scaleX > cw <;>
    by_cases h2 : c.top + c.height * c.scaleY > ch <;>
    by_cases h3 : c.left < 0 <;>
    by_cases h4 : c.top < 0 <;>
    simp [h1, h2, h3, h4, effW, effH]

theorem coreBViols_nil_of_fits (cw ch : Num) (c : ElementCore)
    (hw : effW c ≤ cw) (hh : effH c ≤ ch) :
    coreBViols cw ch (fixCoreBounds cw ch c) = [] := by
  rw [fixCoreBounds_of_fits cw ch c hw hh]
  have hl0 : (0 : Num) ≤
      (if c.left < 0 then 0
       else if c.left + effW c > cw then max 0 (cw - effW c) else c.left) := by
    split_ifs with h1 h2
    · exact le_refl 0
    · exact le_max_left 0 _
    · exact not_lt.1 h1
  have ht0 : (0 : Num) ≤
      (if c.top < 0 then 0
       else if c.top + effH c > ch then max 0 (ch - effH c) else c.top) := by
    split_ifs with h1 h2
    · exact le_refl 0
    · exact le_max_left 0 _
    · exact not_lt.1 h1
  have hlw : (if c.left < 0 then 0
              else if c.left + effW c > cw then max 0 (cw - effW c) else c.left) +
        effW c ≤ cw := by
    split_ifs with h1 h2
    · simpa using hw
    · rw [max_eq_right (by linarith : (0 : Num) ≤ cw - effW c)]
      linarith
    · linarith [not_lt.1 h2]
  have hth : (if c.top < 0 then 0
              else if c.top + effH c > ch then max 0 (ch - effH c) else c.top) +
        effH c ≤ ch := by
    split_ifs with h1 h2
    · simpa using hh
    · rw [max_eq_right (by linarith : (0 : Num) ≤ ch - effH c)]
      linarith
    · linarith [not_lt.1 h2]
  have h1 := not_lt.2 hlw
  have h2 := not_lt.2 hth
  have h3 := not_lt.2 hl0
  have h4 := not_lt.2 ht0
  simp only [coreBViols, effW, effH] at *
  simp [h1, h2, h3, h4]

mutual
theorem sizesOK_fixGradElem (cw ch : Num) (e : Element) (he : elemSizesOK cw ch e) :
    elemSizesOK cw ch (fixGradElem e) := by
  cases e with
  | mk c cs =>
    rw [elemSizesOK] at he
    show elemSizesOK cw ch (.mk { c with fill := fixFillGradient c.fill } (fixGradList cs))
    rw [elemSizesOK]
    refine ⟨he.1, ?_⟩
    show (if c.etype = sGroup then listSizesOK cw ch (fixGradList cs) else True)
    by_cases hg : c.etype = sGroup
    · rw [if_pos hg]
      have hcs : listSizesOK cw ch cs := by
        have := he.2
        rwa [if_pos hg] at this
      exact sizesOK_fixGradList cw ch cs hcs
    · rw [if_neg hg]
      trivial
theorem sizesOK_fixGradList (cw ch : Num) (l : ElementList) (hl : listSizesOK cw ch l) :
    listSizesOK cw ch (fixGradList l) := by
  cases l with
  | nil => trivial
  | cons e es =>
    rw [listSizesOK] at hl
    show listSizesOK cw ch (.cons (fixGradElem e) (fixGradList es))
    rw [listSizesOK]
    exact ⟨sizesOK_fixGradElem cw ch e hl.1, sizesOK_fixGradList cw ch es hl.2⟩
end

mutual
theorem sizesOK_fixTextTypeElem (cw ch : Num) (e : Element) (he : elemSizesOK cw ch e) :
    elemSizesOK cw ch (fixTextTypeElem e) := by
  cases e with
  | mk c cs =>
    rw [elemSizesOK] at he
    rw [fixTextTypeElem]
    by_cases ht : c.etype = sText
    · rw [if_pos ht]
      have hng : ¬(sTextbox : String) = sGroup := by decide
      rw [if_neg hng]
      rw [elemSizesOK]
      exact ⟨he.1, by rw [if_neg hng]; trivial⟩
    · rw [if_neg ht]
      by_cases hg : c.etype = sGroup
      · rw [if_pos hg]
        rw [elemSizesOK]
        refine ⟨he.1, ?_⟩
        rw [if_pos hg]
        have hcs : listSizesOK cw ch cs := by
          have := he.2
          rwa [if_pos hg] at this
        exact sizesOK_fixTextTypeList cw ch cs hcs
      · rw [if_neg hg]
        rw [elemSizesOK]
        exact ⟨he.1, by rw [if_neg hg]; trivial⟩
theorem sizesOK_fixTextTypeList (cw ch : Num) (l : ElementList) (hl : listSizesOK cw ch l) :
    listSizesOK cw ch (fixTextTypeList l) := by
  cases l with
  | nil => trivial
  | cons e es =>
    rw [listSizesOK] at hl
    show listSizesOK cw ch (.cons (fixTextTypeElem e) (fixTextTypeList es))
    rw [listSizesOK]
    exact ⟨sizesOK_fixTextTypeElem cw ch e hl.1, sizesOK_fixTextTypeList cw ch es hl.2⟩
end

mutual
theorem elemBViols_nil_of_fits (cw ch : Num) (e : Element) (he : elemSizesOK cw ch e) :
    elemBViols cw ch (fixElemBounds cw ch e) = [] := by
  cases e with
  | mk c cs =>
    rw [elemSizesOK] at he
    rw [fixElemBounds, elemBViols, coreBViols_nil_of_fits cw ch c he.1.1 he.1.2,
      fixCoreBounds_etype]
    by_cases hg : c.etype = sGroup
    · rw [if_pos hg, if_pos hg]
      have hcs : listSizesOK cw ch cs := by
        have := he.2
        rwa [if_pos hg] at this
      rw [listBViols_nil_of_fits cw ch cs hcs]
      rfl
    · rw [if_neg hg]
      rfl
theorem listBViols_nil_of_fits (cw ch : Num) (l : ElementList) (hl : listSizesOK cw ch l) :
    listBViols cw ch (fixListBounds cw ch l) = [] := by
  cases l with
  | nil => rfl
  | cons e es =>
    rw [listSizesOK] at hl
    show listBViols cw ch (.cons (fixElemBounds cw ch e) (fixListBounds cw ch es)) = []
    rw [listBViols, elemBViols_nil_of_fits cw ch e hl.1, listBViols_nil_of_fits cw ch es hl.2]
    rfl

end

/-- C1 amended: for a canvas of at least 100x100, a document whose
violations are all boundary violations, *and whose elements each fit the
canvas at their effective size* (`effW ≤ width`, `effH ≤ height`,
recursively), `fix_programmatic_errors` followed by
`validate_element_boundaries` yields zero boundary violations.  Without the
fits-hypothesis the claim is false: an element wider than the canvas whose
`scaleX ≤ 1` and `left > width - 50` hits the width floor and is left
intruding (see the counterexample), as §4.3's floor rule itself documents. -/
theorem c1_boundary_repair_of_fits (d : Doc) (res : Num × Num)
    (hw : 100 ≤ res.1) (hh : 100 ≤ res.2)
    (honly : ∀ v ∈ programmaticViolations d res, v = VCat.boundary)
    (hsizes : listSizesOK res.1 res.2 d.objects) :
    validate_element_boundaries
      (fix_programmatic_errors d (programmaticViolations d res) res) res = [] := by
  have hskip : (programmaticViolations d res).any VCat.mentionsOverlap = false := by
    rw [List.any_eq_false]
    intro v hv
    rw [honly v hv]
    simp [VCat.mentionsOverlap]
  unfold fix_programmatic_errors
  rw [if_neg (by rw [hskip]; exact Bool.false_ne_true)]
  unfold validate_element_boundaries
  exact listBViols_nil_of_fits res.1 res.2 _
    (sizesOK_fixTextTypeList res.1 res.2 _ (sizesOK_fixGradList res.1 res.2 _ hsizes))

/-- C1 witness: a 100x100 canvas with a single rect at `left = 60` of
effective width 50 (fits, but overflows the right edge): its only
violation is a boundary violation, and after repair the boundary validator
reports none. -/
theorem c1_boundary_repair_witness :
    validate_element_boundaries
      (fix_programmatic_errors docBoundaryOK
        (programmaticViolations docBoundaryOK (100, 100)) (100, 100)) (100, 100) = [] := by
  apply c1_boundary_repair_of_fits docBoundaryOK (100, 100) (by norm_num) (by norm_num)
  · intro v hv
    have hviol : programmaticViolations docBoundaryOK (100, 100) = [VCat.boundary] := by
      have h0 : splitNL (("").data) = [[]] := by decide
      have e1 : (("rect" : String) = "group") = False := by simp
      have e2 : (("rect" : String) = "text") = False := by simp
      have e3 : (("rect" : String) = "textbox") = False := by simp
      norm_num [docBoundaryOK, programmaticViolations, validate_json_structure,
        validate_canvas_dimensions, validate_element_boundaries, listBViols, elemBViols,
        coreBViols, effW, effH, validate_gradient_syntax, listGViols, elemGViols,
        fillGViols, validate_text_objects, listTViols, elemTViols, validate_color_format,
        listCViols, elemCViols, coreCViols, validate_text_overlaps, collectList,
        collectElem, get_element_bounds, estH, lineCount, h0, overlapViolationPairs,
        flaggedPair, boxes_overlap, allowedOverlap, textGapViols, sortCByTop, insByTop,
        List.filter, List.range_succ, List.flatMap, List.filterMap_cons, e1, e2, e3]
    rw [hviol] at hv
    simpa using hv
  · show listSizesOK 100 100 docBoundaryOK.objects
    have e1 : (("rect" : String) = "group") = False := by simp
    norm_num [docBoundaryOK, listSizesOK, elemSizesOK, effW, effH, e1]

/-- C1 counterexample: on a 100x100 canvas, a rect at `left = 60` with
`width = 200, scaleX = 1` produces only boundary violations, yet after
`fix_programmatic_errors` the boundary validator still reports a violation:
the repair resizes the width to the 50px floor (`max(100 - 60, 50)`) and
leaves `left = 60`, so `60 + 50 > 100` remains. -/
theorem c1_boundary_repair_counterexample :
    (∀ v ∈ programmaticViolations docBoundaryFloor (100, 100), v = VCat.boundary) ∧
    validate_element_boundaries
      (fix_programmatic_errors docBoundaryFloor
        (programmaticViolations docBoundaryFloor (100, 100)) (100, 100)) (100, 100) ≠ [] := by
  have h0 : splitNL (("").data) = [[]] := by decide
  have e1 : (("rect" : String) = "group") = False := by simp
  have e2 : (("rect" : String) = "text") = False := by simp
  have e3 : (("rect" : String) = "textbox") = False := by simp
  have hviol : programmaticViolations docBoundaryFloor (100, 100) = [VCat.boundary] := by
    norm_num [docBoundaryFloor, programmaticViolations, validate_json_structure,
      validate_canvas_dimensions, validate_element_boundaries, listBViols, elemBViols,
      coreBViols, effW, effH, validate_gradient_syntax, listGViols, elemGViols,
      fillGViols, validate_text_objects, listTViols, elemTViols, validate_color_format,
      listCViols, elemCViols, coreCViols, validate_text_overlaps, collectList,
      collectElem, get_element_bounds, estH, lineCount, h0, overlapViolationPairs,
      flaggedPair, boxes_overlap, allowedOverlap, textGapViols, sortCByTop, insByTop,
      List.filter, List.range_succ, List.flatMap, List.filterMap_cons, e1, e2, e3]
  constructor
  · intro v hv
    rw [hviol] at hv
    simpa using hv
  · rw [hviol]
    norm_num [docBoundaryFloor, fix_programmatic_errors, fixCanvasVersion, fixGradList,
      fixGradElem, fixFillGradient, fixTextTypeList, fixTextTypeElem, fixListBounds,
      fixElemBounds, fixCoreBounds, fixRight, fixBottom, VCat.mentionsOverlap,
      validate_element_boundaries, listBViols, elemBViols, coreBViols, effW, effH,
      e1, e2, e3]

/-! ### C6: feedback fallback on broken responses -/

/-- C6: when the programmatic-fix branch does not return early, and the
external feedback call either raises (`llmResp = none`) or yields a
response whose cleaned text fails programmatic re-validation (or cannot be
cleaned), `apply_feedback` returns the previous candidate string exactly;
being a total function, it propagates no error to the caller. -/
theorem c6_apply_feedback_fallback (parse : String → Option Doc) (dumps : Doc → String)
    (llmResp : Option String) (fabricJson feedback : String) (res : Num × Num)
    (hnofix : pyStartsWith feedback sProgErrors = true →
      progValid parse
        (fixProgrammaticStr parse dumps fabricJson
          (progValidationCats parse fabricJson res) res) res = false)
    (hfail : ∀ t c, llmResp = some t → cleanLLM t = some c → progValid parse c res = false) :
    apply_feedback parse dumps llmResp fabricJson feedback res = fabricJson := by
  have hllm : ∀ t : String, llmResp = some t →
      (match cleanLLM t with
       | Option.none => fabricJson
       | some cleaned => if progValid parse cleaned res then cleaned else fabricJson) =
        fabricJson := by
    intro t ht
    cases hcl : cleanLLM t with
    | none => rfl
    | some c =>
      show (if progValid parse c res = true then c else fabricJson) = fabricJson
      rw [if_neg (by rw [hfail t c ht hcl]; exact Bool.false_ne_true)]
  unfold apply_feedback
  by_cases hsw : pyStartsWith feedback sProgErrors = true
  · rw [if_pos hsw, if_neg (by rw [hnofix hsw]; exact Bool.false_ne_true)]
    cases llmResp with
    | none => rfl
    | some t => exact hllm t rfl
  · rw [if_neg hsw]
    cases llmResp with
    | none => rfl
    | some t => exact hllm t rfl

/-- C6 witness: unparseable candidate, non-JSON response, plain design
feedback: the previous candidate string is returned exactly. -/
theorem c6_apply_feedback_fallback_witness :
    apply_feedback parseNone dumpsEmpty (some ("not json")) "prev candidate"
      "improve contrast" (100, 100) = "prev candidate" :=
  c6_apply_feedback_fallback parseNone dumpsEmpty (some ("not json")) "prev candidate"
    "improve contrast" (100, 100) (fun _ => rfl) (fun _ _ _ _ => rfl)

/-! ### C7: loop termination under an always-CONTINUE critic -/

theorem listIsPref_append_self (l m : List Char) : listIsPref l (l ++ m) = true := by
  induction l with
  | nil => rfl
  | cons a as ih => simp [listIsPref, ih]

theorem pyStartsWith_append (p y : String) : pyStartsWith (p ++ y) p = true := by
  show listIsPref p.data (p.data ++ y.data) = true
  exact listIsPref_append_self _ _

theorem continue_not_pass (y : String) :
    pyStartsWith (sContinueColon ++ y) sPASS = false := by
  show listIsPref sPASS.data (sContinueColon.data ++ y.data) = false
  rfl

theorem dropWhile_append_my (p : Char → Bool) (l₁ l₂ : List Char) :
    List.dropWhile p (l₁ ++ l₂) =
      if (List.dropWhile p l₁).isEmpty then List.dropWhile p l₂
      else List.dropWhile p l₁ ++ l₂ := by
  induction l₁ with
  | nil => simp
  | cons a as ih =>
    by_cases hp : p a
    · simp [List.dropWhile_cons, hp, ih]
    · simp [List.dropWhile_cons, hp]

theorem rstripL_append_nonspace (pre suf : List Char) (c : Char)
    (hc : pyIsSpace c = false) :
    rstripL ((pre ++ [c]) ++ suf) = (pre ++ [c]) ++ rstripL suf := by
  unfold rstripL
  rw [List.reverse_append, List.reverse_append, dropWhile_append_my]
  by_cases he : (List.dropWhile pyIsSpace suf.reverse).isEmpty
  · rw [if_pos he]
    have hsuf : List.dropWhile pyIsSpace suf.reverse = [] := by
      rwa [List.isEmpty_iff] at he
    rw [hsuf]
    show (List.dropWhile pyIsSpace (c :: pre.reverse)).reverse = (pre ++ [c]) ++ [].reverse
    rw [List.dropWhile_cons, if_neg (by rw [hc]; exact Bool.false_ne_true)]
    simp
  · rw [if_neg he]
    rw [List.reverse_append]
    simp

theorem pyStrip_keeps_continue_head (y : String) :
    ∃ z : String, pyStrip (sContinueColon ++ y) = sContinueColon ++ z := by
  refine ⟨⟨rstripL y.data⟩, ?_⟩
  show (⟨rstripL (lstripL (sContinueColon.data ++ y.data))⟩ : String) = _
  have hl : lstripL (sContinueColon.data ++ y.data) = sContinueColon.data ++ y.data := by
    show List.dropWhile pyIsSpace ('C' :: _) = _
    rw [List.dropWhile_cons, if_neg (by decide : ¬pyIsSpace 'C' = true)]
    rfl
  rw [hl]
  have hsplit : sContinueColon.data ++ y.data = ("CONTINUE".data ++ [':']) ++ y.data := rfl
  rw [hsplit, rstripL_append_nonspace _ _ _ (by rfl)]
  rfl

theorem validate_banner_continue (env : LoopEnv) (i : Nat) (cur : String) (res : Num × Num)
    (hc : ∃ fb, env.critique i = some (sContinueColon ++ fb)) :
    ∃ y, validate_banner env i cur res = sContinueColon ++ y := by
  obtain ⟨fb, hfb⟩ := hc
  unfold validate_banner
  by_cases hv : (progValidationCats env.parse cur res).isEmpty
  · rw [if_pos hv, hfb]
    exact pyStrip_keeps_continue_head fb
  · rw [if_neg hv]
    exact ⟨" PROGRAMMATIC_ERRORS: " ++ errSummary (progValidationCats env.parse cur res), rfl⟩

theorem composeLoop_chain_step (env : LoopEnv) (res : Num × Num) (initial : String)
    (fuel k : Nat) (hk : k < 4) (y : String)
    (hv : validate_banner env k (feedbackChain env res initial k) res = sContinueColon ++ y) :
    composeLoop env res (fuel + 1) k (feedbackChain env res initial k) =
      ((composeLoop env res fuel (k + 1) (feedbackChain env res initial (k + 1))).1,
       (composeLoop env res fuel (k + 1) (feedbackChain env res initial (k + 1))).2.1 + 1,
       (composeLoop env res fuel (k + 1) (feedbackChain env res initial (k + 1))).2.2 + 1) := by
  simp only [composeLoop]
  rw [if_neg (by rw [hv, continue_not_pass]; exact Bool.false_ne_true),
    if_pos (by rw [hv]; exact pyStartsWith_append _ _), if_pos hk]
  rfl

theorem composeLoop_continue_last (env : LoopEnv) (res : Num × Num) (fuel : Nat)
    (cur : String) (y : String)
    (hv : validate_banner env 4 cur res = sContinueColon ++ y) :
    composeLoop env res (fuel + 1) 4 cur = (cur, 1, 0) := by
  simp only [composeLoop]
  rw [if_neg (by rw [hv, continue_not_pass]; exact Bool.false_ne_true),
    if_pos (by rw [hv]; exact pyStartsWith_append _ _), if_neg (by norm_num)]

/-- C7: for every critic oracle that always answers with a
`"CONTINUE:..."` verdict, `compose_fabric_banner` terminates after exactly
5 validation round-trips, applies feedback on the first 4 only, and returns
the then-current candidate (the 4-fold feedback chain) — a document string,
not an error. -/
theorem c7_loop_termination (env : LoopEnv) (res : Num × Num) (initial : String)
    (hc : ∀ i : Nat, ∃ fb, env.critique i = some (sContinueColon ++ fb)) :
    compose_fabric_banner env res initial = (feedbackChain env res initial 4, 5, 4) := by
  obtain ⟨y0, hv0⟩ := validate_banner_continue env 0 (feedbackChain env res initial 0) res (hc 0)
  obtain ⟨y1, hv1⟩ := validate_banner_continue env 1 (feedbackChain env res initial 1) res (hc 1)
  obtain ⟨y2, hv2⟩ := validate_banner_continue env 2 (feedbackChain env res initial 2) res (hc 2)
  obtain ⟨y3, hv3⟩ := validate_banner_continue env 3 (feedbackChain env res initial 3) res (hc 3)
  obtain ⟨y4, hv4⟩ := validate_banner_continue env 4 (feedbackChain env res initial 4) res (hc 4)
  show composeLoop env res 5 0 (feedbackChain env res initial 0) = _
  rw [composeLoop_chain_step env res initial 4 0 (by norm_num) y0 hv0,
    composeLoop_chain_step env res initial 3 1 (by norm_num) y1 hv1,
    composeLoop_chain_step env res initial 2 2 (by norm_num) y2 hv2,
    composeLoop_chain_step env res initial 1 3 (by norm_num) y3 hv3,
    composeLoop_continue_last env res 0 (feedbackChain env res initial 4) y4 hv4]

/-- C7 witness: with an always-failing parser, an always-CONTINUE critic
and an always-raising feedback LLM, the loop runs its 5 validations, the 4
feedback applications all fall back to the current candidate, and the
initial document is returned. -/
theorem c7_loop_termination_witness :
    compose_fabric_banner envContinue (100, 100) "init" = ("init", 5, 4) := by
  have h := c7_loop_termination envContinue (100, 100) "init"
    (fun _ => ⟨" improve", rfl⟩)
  rw [h]
  decide

/-- C10: after `fix_programmatic_errors`, every element of the returned
document (recursively through group children) has `left ≥ 0` and `top ≥ 0`,
for any input document, error list and resolution. -/
theorem c10_repairer_nonnegative_positions (d : Doc) (errors : List VCat) (res : Num × Num) :
    listPosOK (fix_programmatic_errors d errors res).objects := by
  unfold fix_programmatic_errors
  have hfixed : listPosOK (fixListBounds res.1 res.2 (fixTextTypeList (fixGradList d.objects))) :=
    fixListBounds_posOK res.1 res.2 _
  by_cases h : errors.any VCat.mentionsOverlap
  · rw [if_pos h]
    exact fix_text_overlaps_posOK _ res hfixed
  · rw [if_neg h]
    exact hfixed

end Banner
